import Mathlib

/-!
Verification of the HiPS mosaic client core, shallowly embedded from the C++
sources: the directional-neighbor resolver and 3x3 grid builder
(ProperHipsClient.cpp, createProper3x3Grid / getDirectionalNeighbors), the
NxM grid builder with its center-validation and fallback
(createProperNxMGrid / createFallbackGrid), the mosaic assembler
(main_m51_widget.cpp, assembleFinalMosaic), the coordinate-centering engine
(main_enhanced_mosaic.cpp, calculateTargetPixelPosition / cropMosaicToCenter /
calculateAngularDistance), and tile-URL construction (buildTileUrl).

Modelling conventions:
- C++ long long / int arithmetic is modelled with Lean Int.  Every division
  in the embedded code divides non-negative quantities (pixel / 10000,
  nside / 32, gridWidth / 2, cropSize / 2), where C++ truncating division and
  Lean Int division agree, so / is used directly.
- The HEALPix library calls (Healpix_Base::neighbors, ang2pix, pix2ang) are
  external to this repository; their outputs enter the embedded functions as
  parameters (a neighbor-slot assignment Fin 8 -> Int with negative entries
  for missing neighbors, and pixel ids with the -1 failure sentinel).
- QMap<QString, long long> is modelled as an association list with
  overwrite-on-insert and lookup-with-default, matching QMap assignment and
  QMap::value(key, default).
- Floating-point double arithmetic of the centering engine is modelled over
  the reals; the claims settled against it concern exact values (offset zero,
  threshold comparisons) that do not depend on rounding of representable
  inputs.
-/

namespace Hips

/-! # Definitions -/

/-! ## Grids: QList<QList<long long>> with index read/write

A grid is a list of rows.  The C++ code allocates rows with resize (default
value 0 for long long) and then assigns cells; cell and setCell model the
operator[] reads and writes of the source. -/

abbrev Grid := List (List Int)

def cell (g : Grid) (y x : Nat) : Int := (g.getD y []).getD x 0

def setCell (g : Grid) (y x : Nat) (v : Int) : Grid :=
  g.set y ((g.getD y []).set x v)

def gridDims (g : Grid) (h w : Nat) : Prop :=
  g.length = h ∧ ∀ r ∈ g, r.length = w

/-- Flat sequences of (row, column, value) cell writes; the imperative fill
loops of the C++ grid builders are related to these below. -/
abbrev CellWrite := Nat × Nat × Int

def writes (l : List CellWrite) (g : Grid) : Grid :=
  l.foldl (fun g e => setCell g e.1 e.2.1 e.2.2) g

/-! ## QMap<QString, long long>

Association list with overwrite-on-insert (QMap assignment
directionalNeighbors[key] = v) and lookup-with-default (QMap::value). -/

def qmapInsert : List (String × Int) → String → Int → List (String × Int)
  | [], k, v => [(k, v)]
  | (k₀, v₀) :: rest, k, v =>
      if k₀ = k then (k, v) :: rest else (k₀, v₀) :: qmapInsert rest k v

def qmapValue : List (String × Int) → String → Int → Int
  | [], _, d => d
  | (k₀, v₀) :: rest, k, d => if k₀ = k then v₀ else qmapValue rest k d

/-! ## Directional neighbors and the exact 3x3 grid
(ProperHipsClient.cpp, getDirectionalNeighbors / createProper3x3Grid)

The HEALPix neighbor query fills a fix_arr<int,8>; the embedding takes that
slot array as a function nbr : Fin 8 -> Int, negative entries denoting
missing neighbors (exactly the per-slot validity signal of the library). -/

def directions : List String := ["S", "SE", "E", "NE", "N", "NW", "W", "SW"]

def getDirectionalNeighbors (nbr : Fin 8 → Int) : List (String × Int) :=
  (List.finRange 8).foldl
    (fun m i => if 0 ≤ nbr i then qmapInsert m (directions.getD i "") (nbr i) else m)
    []

def createProper3x3Grid (centerPixel : Int) (nbr : Fin 8 → Int) : Grid :=
  let neighbors := getDirectionalNeighbors nbr
  [[qmapValue neighbors "SW" (-1), qmapValue neighbors "S" (-1),
    qmapValue neighbors "SE" (-1)],
   [qmapValue neighbors "W" (-1), centerPixel, qmapValue neighbors "E" (-1)],
   [qmapValue neighbors "NW" (-1), qmapValue neighbors "N" (-1),
    qmapValue neighbors "NE" (-1)]]

/-- Value that the neighbor-map lookup yields for slot i: the raw slot entry
when it is a valid (non-negative) neighbor, and the absent marker -1
otherwise. -/
def slotValue (nbr : Fin 8 → Int) (i : Fin 8) : Int :=
  if 0 ≤ nbr i then nbr i else -1

inductive Direction : Type
  | south | southeast | east | northeast | north | northwest | west | southwest
deriving DecidableEq

/-- Slot index assigned to each compass direction by the fixed
slot-to-direction list {S, SE, E, NE, N, NW, W, SW} over neighbor
slots 0..7. -/
def directionSlot : Direction → Fin 8
  | .south => 0
  | .southeast => 1
  | .east => 2
  | .northeast => 3
  | .north => 4
  | .northwest => 5
  | .west => 6
  | .southwest => 7

/-- The neighbor the claim assigns to a compass direction: the raw neighbor
in the slot of that direction when present, -1 when absent. -/
def compassNeighbor (nbr : Fin 8 → Int) (d : Direction) : Int :=
  slotValue nbr (directionSlot d)

/-! ## The NxM grid builder
(createProperNxMGrid / createFallbackGrid, complete working implementation in
the unnamed ProperHipsClient.cpp variant)

The run variant returns alongside the grid the observable choice of path:
true exactly when the uniform fallback grid was returned after a failed
center validation.  The C++ exception path (a HEALPix library throw) is
outside the embedding; all other control flow is translated. -/

/-- nside = 1LL << order. -/
def nsideOf (order : Nat) : Int := 2 ^ order

/-- pixelSpacing = std::max(1LL, nside / 32). -/
def pixelSpacing (order : Nat) : Int := max 1 (nsideOf order / 32)

/-- maxPixel = 12 * nside * nside - 1. -/
def maxPixelOf (order : Nat) : Int := 12 * nsideOf order * nsideOf order - 1

/-- estimatedPixel = centerPixel + deltaY * pixelSpacing * 8 +
deltaX * pixelSpacing, clamped by std::max(0LL, std::min(_, maxPixel)). -/
def estimatedPixel (centerPixel : Int) (order : Nat) (deltaX deltaY : Int) : Int :=
  max 0 (min (centerPixel + deltaY * pixelSpacing order * 8 + deltaX * pixelSpacing order)
    (maxPixelOf order))

def createFallbackGrid (centerPixel : Int) (order : Nat)
    (gridWidth gridHeight : Nat) : Grid :=
  let centerX := gridWidth / 2
  let centerY := gridHeight / 2
  (List.range gridHeight).map fun (y : Nat) => (List.range gridWidth).map fun (x : Nat) =>
    estimatedPixel centerPixel order ((x : Int) - centerX) ((y : Int) - centerY)

/-- Step 2 of createProperNxMGrid: place the reference 3x3 grid at the
center of the larger grid, skipping out-of-bounds targets. -/
def nxmPlace3x3 (reference3x3 : Grid) (gridWidth gridHeight : Nat) (g : Grid) :
    Grid :=
  let centerX := gridWidth / 2
  let centerY := gridHeight / 2
  (List.range 3).foldl (fun g (y : Nat) =>
    (List.range 3).foldl (fun g (x : Nat) =>
      if 0 ≤ (centerX : Int) - 1 + x ∧ (centerX : Int) - 1 + x < gridWidth ∧
          0 ≤ (centerY : Int) - 1 + y ∧ (centerY : Int) - 1 + y < gridHeight then
        setCell g ((centerY : Int) - 1 + y).toNat ((centerX : Int) - 1 + x).toNat
          (cell reference3x3 y x)
      else g) g) g

/-- Step 3 of createProperNxMGrid: fill every position outside the center
3x3 block with the estimated pixel. -/
def nxmFillOuter (centerPixel : Int) (order : Nat) (gridWidth gridHeight : Nat)
    (g : Grid) : Grid :=
  let centerX := gridWidth / 2
  let centerY := gridHeight / 2
  (List.range gridHeight).foldl (fun g (y : Nat) =>
    (List.range gridWidth).foldl (fun g (x : Nat) =>
      if (centerX : Int) - 1 ≤ x ∧ (x : Int) ≤ centerX + 1 ∧
          (centerY : Int) - 1 ≤ y ∧ (y : Int) ≤ centerY + 1 then g
      else setCell g y x
        (estimatedPixel centerPixel order ((x : Int) - centerX) ((y : Int) - centerY))) g) g

/-- Step 4 of createProperNxMGrid: compare the center 3x3 block of the
assembled grid against the reference, position by in-bounds position. -/
def nxmCenterValid (reference3x3 : Grid) (gridWidth gridHeight : Nat)
    (g : Grid) : Bool :=
  let centerX := gridWidth / 2
  let centerY := gridHeight / 2
  (List.range 3).all fun (y : Nat) => (List.range 3).all fun (x : Nat) =>
    if 0 ≤ (centerX : Int) - 1 + x ∧ (centerX : Int) - 1 + x < gridWidth ∧
        0 ≤ (centerY : Int) - 1 + y ∧ (centerY : Int) - 1 + y < gridHeight then
      cell g ((centerY : Int) - 1 + y).toNat ((centerX : Int) - 1 + x).toNat
        == cell reference3x3 y x
    else true

def createProperNxMGridRun (centerPixel : Int) (order : Nat)
    (gridWidth gridHeight : Nat) (nbr : Fin 8 → Int) : Grid × Bool :=
  if gridWidth = 3 ∧ gridHeight = 3 then
    (createProper3x3Grid centerPixel nbr, false)
  else
    let reference3x3 := createProper3x3Grid centerPixel nbr
    let g1 := nxmPlace3x3 reference3x3 gridWidth gridHeight
      (List.replicate gridHeight (List.replicate gridWidth 0))
    let g2 := nxmFillOuter centerPixel order gridWidth gridHeight g1
    if nxmCenterValid reference3x3 gridWidth gridHeight g2 then (g2, false)
    else (createFallbackGrid centerPixel order gridWidth gridHeight, true)

/-- The write list performed by nxmPlace3x3, row-major as the loops run. -/
def placeWrites (reference3x3 : Grid) (gridWidth gridHeight : Nat) :
    List CellWrite :=
  let centerX := gridWidth / 2
  let centerY := gridHeight / 2
  (List.range 3).flatMap fun (y : Nat) =>
    ((List.range 3).filter fun (x : Nat) =>
      decide (0 ≤ (centerX : Int) - 1 + x ∧ (centerX : Int) - 1 + x < gridWidth ∧
        0 ≤ (centerY : Int) - 1 + y ∧ (centerY : Int) - 1 + y < gridHeight)).map
      fun (x : Nat) =>
        (((centerY : Int) - 1 + y).toNat, ((centerX : Int) - 1 + x).toNat,
          cell reference3x3 y x)

/-- The write list performed by nxmFillOuter, row-major as the loops run. -/
def outerWrites (centerPixel : Int) (order : Nat) (gridWidth gridHeight : Nat) :
    List CellWrite :=
  let centerX := gridWidth / 2
  let centerY := gridHeight / 2
  (List.range gridHeight).flatMap fun (y : Nat) =>
    ((List.range gridWidth).filter fun (x : Nat) =>
      decide (¬((centerX : Int) - 1 ≤ x ∧ (x : Int) ≤ centerX + 1 ∧
        (centerY : Int) - 1 ≤ y ∧ (y : Int) ≤ centerY + 1))).map
      fun (x : Nat) =>
        (y, x, estimatedPixel centerPixel order ((x : Int) - centerX) ((y : Int) - centerY))

def createProperNxMGrid (centerPixel : Int) (order : Nat)
    (gridWidth gridHeight : Nat) (nbr : Fin 8 → Int) : Grid :=
  (createProperNxMGridRun centerPixel order gridWidth gridHeight nbr).1

/-! ## Coverage metric of the grid test driver
(grid_test_main.cpp, testSpecificGrid) -/

/-- Count of grid cells holding a non-negative (valid) pixel id, iterating
rows 0..height-1 and columns 0..width-1 as the test driver does. -/
def validPixelCount (g : Grid) (width height : Nat) : Nat :=
  ((List.range height).map fun y =>
    ((List.range width).filter fun x => 0 ≤ cell g y x).length).sum

/-- The coverage test of testSpecificGrid: coverage >= 95.0 where coverage =
double(validPixels) / double(width*height) * 100.0.  On the integer counts
involved this double comparison is the rational inequality below. -/
def gridCoveragePasses (g : Grid) (width height : Nat) : Bool :=
  95 * (width * height) ≤ 100 * validPixelCount g width height

/-! ## Images and the mosaic assembler
(main_m51_widget.cpp, assembleFinalMosaic)

A QImage is a raster with a colour at each in-range pixel; colours are
abstracted to Int (black is Qt::black, the fill colour).  The image of a tile is
Option Image: some img models tile.downloaded && !tile.image.isNull(). -/

structure Image where
  width : Int
  height : Int
  pix : Int → Int → Int

def black : Int := 0

/-- QPainter::drawImage(x0, y0, img) on a canvas-backed painter: pixels of
the canvas inside the drawn rectangle (clipped to the canvas) take the
colour of the image, all others keep their colour. -/
def drawImage (canvas : Image) (x0 y0 : Int) (img : Image) : Image :=
  { canvas with
    pix := fun p q =>
      if 0 ≤ p ∧ p < canvas.width ∧ 0 ≤ q ∧ q < canvas.height ∧
          x0 ≤ p ∧ p < x0 + img.width ∧ y0 ≤ q ∧ q < y0 + img.height
      then img.pix (p - x0) (q - y0)
      else canvas.pix p q }

structure SkyPosition where
  ra_deg : ℝ
  dec_deg : ℝ

/-- The per-cell tile record (struct SimpleTile): grid coordinates, the
resolved sky coordinates of the tile center, and the downloaded image if
any. -/
structure SimpleTile where
  gridX : Int
  gridY : Int
  skyCoordinates : SkyPosition
  image : Option Image

/-- The tile placement loop of assembleFinalMosaic: draw every downloaded,
non-null tile at (gridX * tileSize, gridY * tileSize), counting the tiles
placed. -/
def placeTiles (tiles : List SimpleTile) (tileSize : Int) (acc : Image × Nat) :
    Image × Nat :=
  tiles.foldl (fun acc t =>
    match t.image with
    | none => acc
    | some img => (drawImage acc.1 (t.gridX * tileSize) (t.gridY * tileSize) img,
        acc.2 + 1)) acc

/-- The rectangle test used to analyse tile placement: the drawn image of
tile t (placed at (gridX * tileSize, gridY * tileSize)) covers pixel
(p, q). -/
def tileCovers (t : SimpleTile) (tileSize : Int) (img : Image) (p q : Int) : Prop :=
  t.gridX * tileSize ≤ p ∧ p < t.gridX * tileSize + img.width ∧
  t.gridY * tileSize ≤ q ∧ q < t.gridY * tileSize + img.height

/-- assembleFinalMosaic: counts successfully downloaded tiles, returns early
with no mosaic when that count is zero, and otherwise fills a
(gridWidth*512) x (gridHeight*512) raster with black and places every
downloaded tile. -/
def assembleFinalMosaic (gridWidth gridHeight : Int) (tiles : List SimpleTile) :
    Option (Image × Nat) :=
  let successfulTiles := (tiles.filter fun t => t.image.isSome).length
  if successfulTiles = 0 then none
  else
    let tileSize : Int := 512
    let mosaicWidth := gridWidth * tileSize
    let mosaicHeight := gridHeight * tileSize
    let finalMosaic : Image := ⟨mosaicWidth, mosaicHeight, fun _ _ => black⟩
    some (placeTiles tiles tileSize (finalMosaic, 0))

/-- Concrete fixtures used by witness instantiations. -/
def sampleImage : Image := ⟨512, 512, fun _ _ => 7⟩

noncomputable def sampleTileA : SimpleTile := ⟨0, 0, ⟨0, 0⟩, some sampleImage⟩

noncomputable def sampleTileB : SimpleTile := ⟨1, 0, ⟨0, 0⟩, none⟩

/-! ## The coordinate-centering engine
(main_enhanced_mosaic.cpp, calculateAngularDistance /
calculateTargetPixelPosition)

double arithmetic is modelled over the reals; atan2 is the argument of the
complex number x + y*i, which matches the C library atan2(y, x) convention
including atan2(0, 0) = 0. -/

noncomputable def deg2rad (x : ℝ) : ℝ := x * Real.pi / 180

noncomputable def atan2 (y x : ℝ) : ℝ := Complex.arg ⟨x, y⟩

/-- Haversine angular distance of calculateAngularDistance, in radians. -/
noncomputable def calculateAngularDistance (pos1 pos2 : SkyPosition) : ℝ :=
  let ra1 := deg2rad pos1.ra_deg
  let dec1 := deg2rad pos1.dec_deg
  let ra2 := deg2rad pos2.ra_deg
  let dec2 := deg2rad pos2.dec_deg
  let dra := ra2 - ra1
  let ddec := dec2 - dec1
  let a := Real.sin (ddec / 2) * Real.sin (ddec / 2) +
    Real.cos dec1 * Real.cos dec2 * Real.sin (dra / 2) * Real.sin (dra / 2)
  2 * atan2 (Real.sqrt a) (Real.sqrt (1 - a))

/-- Largest finite double, the initial minDistance of the containing-tile
search (std::numeric_limits<double>::max()). -/
noncomputable def DBL_MAX : ℝ := (2 ^ 53 - 1) * 2 ^ 971

open Classical in
/-- The containing-tile search loop of calculateTargetPixelPosition: the
running best tile (initially none) and best distance (initially DBL_MAX),
updated whenever the distance of a tile is strictly smaller. -/
noncomputable def findContainingTile (target : SkyPosition)
    (tiles : List SimpleTile) : Option SimpleTile × ℝ :=
  tiles.foldl (fun acc t =>
    if calculateAngularDistance target t.skyCoordinates < acc.2 then
      (some t, calculateAngularDistance target t.skyCoordinates)
    else acc) (none, DBL_MAX)

/-- Calibrated pixel scale of the raw mosaic, arcsec per pixel. -/
noncomputable def ARCSEC_PER_PIXEL : ℝ := 1.61

/-- The pixel-offset computation of calculateTargetPixelPosition: angular
offsets from the center of the containing tile in arcsec, cos(dec) correction on
the RA component, conversion to pixels, Dec negated because image rows grow
downward. -/
noncomputable def pixelOffset (target tileSky : SkyPosition) : ℝ × ℝ :=
  let offsetRA_arcsec := (target.ra_deg - tileSky.ra_deg) * 3600.0 *
    Real.cos (deg2rad target.dec_deg)
  let offsetDec_arcsec := (target.dec_deg - tileSky.dec_deg) * 3600.0
  (offsetRA_arcsec / ARCSEC_PER_PIXEL, -offsetDec_arcsec / ARCSEC_PER_PIXEL)

/-- static_cast<int>(round(x)): C round halves away from zero. -/
noncomputable def cround (x : ℝ) : Int :=
  if x < 0 then -⌊-x + 1 / 2⌋ else ⌊x + 1 / 2⌋

open Classical in
/-- calculateTargetPixelPosition on the fixed 3x3 raw mosaic (1536x1536):
nearest-tile search, pixel offset with the 400-pixel sanity bound falling
back to the geometric center QPoint(1536/2, 1536/2), absolute position from
the tile-center pixel (gridX*512+256, gridY*512+256), clamped to mosaic
bounds. -/
noncomputable def calculateTargetPixelPosition (target : SkyPosition)
    (tiles : List SimpleTile) : Int × Int :=
  match (findContainingTile target tiles).1 with
  | none => (1536 / 2, 1536 / 2)
  | some containingTile =>
      let off := pixelOffset target containingTile.skyCoordinates
      if 400 < |off.1| ∨ 400 < |off.2| then (1536 / 2, 1536 / 2)
      else
        let tilePixelX := containingTile.gridX * 512 + 256
        let tilePixelY := containingTile.gridY * 512 + 256
        let targetPixelX := tilePixelX + cround off.1
        let targetPixelY := tilePixelY + cround off.2
        (max 0 (min targetPixelX 1535), max 0 (min targetPixelY 1535))

/-- Concrete fixtures for the centering witnesses. -/
noncomputable def sampleTargetC8 : SkyPosition := ⟨1, 0⟩

noncomputable def sampleTileC8 : SimpleTile := ⟨0, 0, ⟨0, 0⟩, none⟩

noncomputable def sampleTargetC7 : SkyPosition := ⟨10, 20⟩

noncomputable def sampleTileC7 : SimpleTile := ⟨1, 1, ⟨10, 20⟩, none⟩

/-! ## Cropping (main_enhanced_mosaic.cpp, cropMosaicToCenter) -/

/-- The crop size of cropMosaicToCenter: cropSize starts at 1200 and is
reduced to fit, cropSize = std::min(cropSize, std::min(width, height)). -/
def cropSizeOf (mosaicWidth mosaicHeight : Int) : Int :=
  min 1200 (min mosaicWidth mosaicHeight)

/-- The crop-window computation of cropMosaicToCenter: a square of side
min(1200, width, height) initially centered on the target pixel, then
shifted inside the mosaic bounds edge by edge.  Returns
(cropX, cropY, cropSize). -/
def cropRect (mosaicWidth mosaicHeight targetX targetY : Int) :
    Int × Int × Int :=
  let cropSize := cropSizeOf mosaicWidth mosaicHeight
  let cropX := targetX - cropSize / 2
  let cropY := targetY - cropSize / 2
  let cropX := if cropX < 0 then 0 else cropX
  let cropY := if cropY < 0 then 0 else cropY
  let cropX := if cropX + cropSize > mosaicWidth then mosaicWidth - cropSize else cropX
  let cropY := if cropY + cropSize > mosaicHeight then mosaicHeight - cropSize else cropY
  (cropX, cropY, cropSize)

/-- QImage::copy(QRect(x0, y0, s, s)): an s x s image reading the source at
the translated coordinates (total, as the uses proved below stay in
bounds). -/
def copyRect (img : Image) (x0 y0 s : Int) : Image :=
  ⟨s, s, fun p q => img.pix (x0 + p) (y0 + q)⟩

def cropMosaicToCenter (mosaic : Image) (targetX targetY : Int) : Image :=
  let r := cropRect mosaic.width mosaic.height targetX targetY
  copyRect mosaic r.1 r.2.1 r.2.2

/-- Concrete fixture for the crop witness: a 1536x1536 raw mosaic. -/
def sampleMosaic : Image := ⟨1536, 1536, fun p q => p + q⟩

/-! ## Survey registry and tile-URL construction
(ProperHipsClient.cpp, setupSurveys / buildTileUrl and the survey-specific
builders)

Only the fields read by URL construction are modelled (name, baseUrl,
format); description, availability, max order and coverage are unused there.
The pixel id is the output of calculateHealPixel (external HEALPix library),
passed in as a parameter, with negative values covering the -1 failure
sentinel of that function. -/

structure HipsSurveyInfo where
  name : String
  baseUrl : String
  format : String

def surveys : List (String × HipsSurveyInfo) :=
  [("DSS2_Color", ⟨"DSS2 Color", "http://alasky.u-strasbg.fr/DSS/DSSColor", "jpg"⟩),
   ("2MASS_Color", ⟨"2MASS Color", "http://alasky.u-strasbg.fr/2MASS/Color", "jpg"⟩),
   ("2MASS_J", ⟨"2MASS J-band", "http://alasky.u-strasbg.fr/2MASS/J", "jpg"⟩),
   ("DSS2_Red", ⟨"DSS2 Red", "http://alasky.u-strasbg.fr/DSS/DSS2-red", "jpg"⟩),
   ("Gaia_DR3", ⟨"Gaia DR3", "http://alasky.u-strasbg.fr/Gaia/Gaia-DR3", "png"⟩),
   ("SDSS_DR12", ⟨"SDSS DR12", "http://alasky.u-strasbg.fr/SDSS/DR12/color", "jpg"⟩),
   ("Mellinger_Color",
     ⟨"Mellinger Color", "http://alasky.u-strasbg.fr/Mellinger/Mellinger_color", "jpg"⟩),
   ("Rubin_Virgo_Color",
     ⟨"Rubin Virgo Color",
       "https://images.rubinobservatory.org/hips/SVImages_v2/color_ugri", "webp"⟩)]

def surveysContains (k : String) : Bool := surveys.any fun e => e.1 = k

def surveyLookup (k : String) : HipsSurveyInfo :=
  match surveys.find? (fun e => e.1 = k) with
  | some e => e.2
  | none => ⟨"", "", ""⟩

/-- QString::startsWith. -/
def qStartsWith (s p : String) : Bool := p.toList.isPrefixOf s.toList

/-- QString::contains (substring). -/
def qContains (s sub : String) : Bool :=
  s.toList.tails.any fun t => sub.toList.isPrefixOf t

def buildDSSUrl (survey : String) (order : Nat) (pixel : Int) : String :=
  let info := surveyLookup survey
  if pixel < 0 then ""
  else
    info.baseUrl ++ "/Norder" ++ toString order ++ "/Dir" ++
      toString (pixel / 10000 * 10000) ++ "/Npix" ++ toString pixel ++ "." ++
      info.format

def build2MASSUrl (survey : String) (order : Nat) (pixel : Int) : String :=
  buildDSSUrl survey order pixel

def buildRubinUrl (survey : String) (order : Nat) (pixel : Int) : String :=
  let info := surveyLookup survey
  if pixel < 0 then ""
  else
    info.baseUrl ++ "/Norder" ++ toString order ++ "/Dir" ++
      toString (pixel / 10000 * 10000) ++ "/Npix" ++ toString pixel ++ "." ++
      info.format

def buildGenericHipsUrl (baseUrl format : String) (order : Nat) (pixel : Int) :
    String :=
  if pixel < 0 then ""
  else
    baseUrl ++ "/Norder" ++ toString order ++ "/Dir" ++
      toString (pixel / 10000 * 10000) ++ "/Npix" ++ toString pixel ++ "." ++
      format

def buildTileUrl (surveyName : String) (order : Nat) (pixel : Int) : String :=
  if !surveysContains surveyName then ""
  else
    let survey := surveyLookup surveyName
    if qStartsWith surveyName "DSS" || qContains surveyName "Mellinger" then
      buildDSSUrl surveyName order pixel
    else if qStartsWith surveyName "2MASS" then
      build2MASSUrl surveyName order pixel
    else if qStartsWith surveyName "Rubin" then
      buildRubinUrl surveyName order pixel
    else
      buildGenericHipsUrl survey.baseUrl survey.format order pixel

/-- The URL pattern stated by the spec:
{baseUrl}/Norder{order}/Dir{dirBucket}/Npix{pixel}.{format} with
dirBucket = floor(pixel / 10000) * 10000. -/
def specTileUrl (baseUrl : String) (order : Nat) (pixel : Int) (format : String) :
    String :=
  baseUrl ++ "/Norder" ++ toString order ++ "/Dir" ++
    toString (pixel / 10000 * 10000) ++ "/Npix" ++ toString pixel ++ "." ++ format

/-! # Theorems -/

/-! ## Grid read/write lemmas -/

theorem getD_set_self {α : Type} {l : List α} {n : Nat} (h : n < l.length)
    (a : α) (d : α) : (l.set n a).getD n d = a := by
  rw [List.getD_eq_getElem?_getD, List.getElem?_set_self h]
  rfl

theorem getD_set_ne {α : Type} {l : List α} {m n : Nat} (h : m ≠ n)
    (a : α) (d : α) : (l.set m a).getD n d = l.getD n d := by
  rw [List.getD_eq_getElem?_getD, List.getElem?_set_ne h,
    ← List.getD_eq_getElem?_getD]

theorem getD_map_range {α : Type} (f : Nat → α) {n i : Nat} (hi : i < n) (d : α) :
    ((List.range n).map f).getD i d = f i := by
  rw [List.getD_eq_getElem?_getD, List.getElem?_map, List.getElem?_range hi]
  rfl

theorem getD_mem_of_lt {l : List (List Int)} {y : Nat} (hy : y < l.length) :
    l.getD y [] ∈ l := by
  rw [List.getD_eq_getElem?_getD, List.getElem?_eq_getElem hy]
  exact List.getElem_mem hy

theorem setCell_dims {g : Grid} {h w : Nat} (hd : gridDims g h w) {y : Nat}
    (hy : y < h) (x : Nat) (v : Int) : gridDims (setCell g y x v) h w := by
  obtain ⟨hl, hr⟩ := hd
  refine ⟨by simp [setCell, hl], ?_⟩
  intro r hrm
  rcases List.mem_or_eq_of_mem_set hrm with hm | he
  · exact hr r hm
  · subst he
    rw [List.length_set]
    exact hr _ (getD_mem_of_lt (hl ▸ hy))

theorem cell_setCell_same {g : Grid} {h w : Nat} (hd : gridDims g h w)
    {y x : Nat} (hy : y < h) (hx : x < w) (v : Int) :
    cell (setCell g y x v) y x = v := by
  obtain ⟨hl, hr⟩ := hd
  have hyl : y < g.length := hl ▸ hy
  have hrow : (g.getD y []).length = w := hr _ (getD_mem_of_lt hyl)
  simp only [cell, setCell]
  rw [getD_set_self hyl, getD_set_self (by omega)]

theorem cell_setCell_ne {g : Grid} {y x y' x' : Nat}
    (hne : y' ≠ y ∨ x' ≠ x) (v : Int) :
    cell (setCell g y x v) y' x' = cell g y' x' := by
  by_cases hyy : y' = y
  · subst hyy
    have hx : x' ≠ x := by tauto
    by_cases hyl : y' < g.length
    · simp only [cell, setCell]
      rw [getD_set_self hyl, getD_set_ne (Ne.symm hx)]
    · simp only [cell, setCell]
      rw [List.set_eq_of_length_le (by omega)]
  · simp only [cell, setCell]
    rw [getD_set_ne (fun h => hyy h.symm)]

theorem writes_cons (e : CellWrite) (l : List CellWrite) (g : Grid) :
    writes (e :: l) g = writes l (setCell g e.1 e.2.1 e.2.2) := rfl

theorem writes_append (l₁ l₂ : List CellWrite) (g : Grid) :
    writes (l₁ ++ l₂) g = writes l₂ (writes l₁ g) :=
  List.foldl_append _ _ _ _

theorem writes_dims {g : Grid} {h w : Nat} {l : List CellWrite}
    (hb : ∀ e ∈ l, e.1 < h ∧ e.2.1 < w) (hd : gridDims g h w) :
    gridDims (writes l g) h w := by
  induction l generalizing g with
  | nil => exact hd
  | cons e l ih =>
      rw [writes_cons]
      exact ih (fun e' he' => hb e' (List.mem_cons_of_mem _ he'))
        (setCell_dims hd (hb e (List.mem_cons_self _ _)).1 _ _)

theorem cell_writes_of_forall_ne {l : List CellWrite} {g : Grid} {Y X : Nat}
    (hne : ∀ e ∈ l, ¬(e.1 = Y ∧ e.2.1 = X)) :
    cell (writes l g) Y X = cell g Y X := by
  induction l generalizing g with
  | nil => rfl
  | cons e l ih =>
      rw [writes_cons, ih (fun e' he' => hne e' (List.mem_cons_of_mem _ he'))]
      exact cell_setCell_ne (by
        have := hne e (List.mem_cons_self _ _)
        tauto) _

theorem cell_writes_of_mem {l : List CellWrite} {g : Grid} {h w Y X : Nat} {v : Int}
    (hd : gridDims g h w) (hb : ∀ e ∈ l, e.1 < h ∧ e.2.1 < w)
    (hY : Y < h) (hX : X < w)
    (hmem : ∃ e ∈ l, e.1 = Y ∧ e.2.1 = X)
    (hval : ∀ e ∈ l, e.1 = Y → e.2.1 = X → e.2.2 = v) :
    cell (writes l g) Y X = v := by
  induction l generalizing g with
  | nil => simp at hmem
  | cons e l ih =>
      by_cases hrest : ∃ e ∈ l, e.1 = Y ∧ e.2.1 = X
      · rw [writes_cons]
        exact ih (setCell_dims hd (hb e (List.mem_cons_self _ _)).1 _ _)
          (fun e' he' => hb e' (List.mem_cons_of_mem _ he')) hrest
          (fun e' he' => hval e' (List.mem_cons_of_mem _ he'))
      · obtain ⟨e₀, he₀, hYX⟩ := hmem
        have he : e₀ = e := by
          rcases List.mem_cons.1 he₀ with h1 | h1
          · exact h1
          · exact absurd ⟨e₀, h1, hYX⟩ hrest
        subst he
        rw [writes_cons,
          cell_writes_of_forall_ne (fun e' he' h' => hrest ⟨e', he', h'⟩)]
        have hv := hval e₀ (List.mem_cons_self _ _) hYX.1 hYX.2
        rw [hYX.1, hYX.2, hv] at *
        exact cell_setCell_same hd hY hX _

theorem foldl_writeGuard {α : Type} (l : List α) (c : α → Prop) [DecidablePred c]
    (t : α → CellWrite) (g : Grid) :
    l.foldl (fun g a => if c a then setCell g (t a).1 (t a).2.1 (t a).2.2 else g) g
      = writes ((l.filter (fun a => decide (c a))).map t) g := by
  induction l generalizing g with
  | nil => rfl
  | cons a l ih =>
      by_cases h : c a
      · have hf : (a :: l).filter (fun a => decide (c a))
            = a :: l.filter (fun a => decide (c a)) := by
          simp [List.filter_cons, h]
        rw [List.foldl_cons, if_pos h, hf, List.map_cons, writes_cons]
        exact ih _
      · have hf : (a :: l).filter (fun a => decide (c a))
            = l.filter (fun a => decide (c a)) := by
          simp [List.filter_cons, h]
        rw [List.foldl_cons, if_neg h, hf]
        exact ih g

theorem foldl_skipGuard {α : Type} (l : List α) (c : α → Prop) [DecidablePred c]
    (t : α → CellWrite) (g : Grid) :
    l.foldl (fun g a => if c a then g else setCell g (t a).1 (t a).2.1 (t a).2.2) g
      = writes ((l.filter (fun a => decide (¬ c a))).map t) g := by
  induction l generalizing g with
  | nil => rfl
  | cons a l ih =>
      by_cases h : c a
      · have hf : (a :: l).filter (fun a => decide (¬ c a))
            = l.filter (fun a => decide (¬ c a)) := by
          simp [List.filter_cons, h]
        rw [List.foldl_cons, if_pos h, hf]
        exact ih g
      · have hf : (a :: l).filter (fun a => decide (¬ c a))
            = a :: l.filter (fun a => decide (¬ c a)) := by
          simp [List.filter_cons, h]
        rw [List.foldl_cons, if_neg h, hf, List.map_cons, writes_cons]
        exact ih _

theorem foldl_writes {α : Type} (l : List α) (Wl : α → List CellWrite) (g : Grid) :
    l.foldl (fun g a => writes (Wl a) g) g = writes (l.flatMap Wl) g := by
  induction l generalizing g with
  | nil => rfl
  | cons a l ih => rw [List.foldl_cons, List.flatMap_cons, writes_append, ih]

/-! ## QMap lookup lemmas -/

theorem qmapValue_insert_same (m : List (String × Int)) (k : String) (v d : Int) :
    qmapValue (qmapInsert m k v) k d = v := by
  induction m with
  | nil => simp [qmapInsert, qmapValue]
  | cons e rest ih =>
      obtain ⟨k₀, v₀⟩ := e
      by_cases h : k₀ = k
      · simp [qmapInsert, h, qmapValue]
      · simp [qmapInsert, h, qmapValue, ih]

theorem qmapValue_insert_ne (m : List (String × Int)) {k k' : String}
    (h : k' ≠ k) (v d : Int) :
    qmapValue (qmapInsert m k v) k' d = qmapValue m k' d := by
  have hkk : k ≠ k' := fun hh => h hh.symm
  induction m with
  | nil => simp [qmapInsert, qmapValue, hkk]
  | cons e rest ih =>
      obtain ⟨k₀, v₀⟩ := e
      by_cases h₀ : k₀ = k
      · subst h₀
        simp [qmapInsert, qmapValue, hkk]
      · simp [qmapInsert, h₀, qmapValue, ih]

theorem qmapValue_buildFold_of_not_mem (nbr : Fin 8 → Int) (l : List (Fin 8))
    (m : List (String × Int)) {k : String} (d : Int)
    (h : ∀ i ∈ l, directions.getD i "" ≠ k) :
    qmapValue (l.foldl
      (fun m i => if 0 ≤ nbr i then qmapInsert m (directions.getD i "") (nbr i) else m)
      m) k d = qmapValue m k d := by
  induction l generalizing m with
  | nil => rfl
  | cons i l ih =>
      rw [List.foldl_cons, ih _ (fun j hj => h j (List.mem_cons_of_mem _ hj))]
      by_cases hp : 0 ≤ nbr i
      · rw [if_pos hp,
          qmapValue_insert_ne _ (fun hh => h i (List.mem_cons_self _ _) hh.symm)]
      · rw [if_neg hp]

theorem qmapValue_getDirectionalNeighbors (nbr : Fin 8 → Int)
    (l₁ l₂ : List (Fin 8)) (i : Fin 8) {k : String}
    (hsplit : List.finRange 8 = l₁ ++ i :: l₂)
    (hk : directions.getD i "" = k)
    (h₁ : ∀ j ∈ l₁, directions.getD j "" ≠ k)
    (h₂ : ∀ j ∈ l₂, directions.getD j "" ≠ k) :
    qmapValue (getDirectionalNeighbors nbr) k (-1) = slotValue nbr i := by
  unfold getDirectionalNeighbors
  rw [hsplit, List.foldl_append, List.foldl_cons,
    qmapValue_buildFold_of_not_mem nbr l₂ _ _ h₂]
  by_cases hp : 0 ≤ nbr i
  · rw [if_pos hp, hk, qmapValue_insert_same, slotValue, if_pos hp]
  · rw [if_neg hp, qmapValue_buildFold_of_not_mem nbr l₁ _ _ h₁,
      slotValue, if_neg hp]
    rfl

/-! ## Claim C1 -/

/-- C1: for every center pixel and neighbor-slot assignment,
createProper3x3Grid returns the 3-row-by-3-column grid with
row 0 = (SW, S, SE), row 1 = (W, center, E), row 2 = (NW, N, NE), where each
compass entry is the neighbor given by the fixed slot-to-direction list
{S, SE, E, NE, N, NW, W, SW} on slots 0..7, absent neighbors appear as -1,
and the center cell (1,1) equals the given center pixel. -/
theorem C1_createProper3x3Grid_layout (centerPixel : Int) (nbr : Fin 8 → Int) :
    createProper3x3Grid centerPixel nbr =
      [[compassNeighbor nbr .southwest, compassNeighbor nbr .south,
        compassNeighbor nbr .southeast],
       [compassNeighbor nbr .west, centerPixel, compassNeighbor nbr .east],
       [compassNeighbor nbr .northwest, compassNeighbor nbr .north,
        compassNeighbor nbr .northeast]] ∧
    cell (createProper3x3Grid centerPixel nbr) 1 1 = centerPixel := by
  have hS : qmapValue (getDirectionalNeighbors nbr) "S" (-1) = slotValue nbr 0 :=
    qmapValue_getDirectionalNeighbors nbr [] [1, 2, 3, 4, 5, 6, 7] 0
      (by decide) (by decide) (by decide) (by decide)
  have hSE : qmapValue (getDirectionalNeighbors nbr) "SE" (-1) = slotValue nbr 1 :=
    qmapValue_getDirectionalNeighbors nbr [0] [2, 3, 4, 5, 6, 7] 1
      (by decide) (by decide) (by decide) (by decide)
  have hE : qmapValue (getDirectionalNeighbors nbr) "E" (-1) = slotValue nbr 2 :=
    qmapValue_getDirectionalNeighbors nbr [0, 1] [3, 4, 5, 6, 7] 2
      (by decide) (by decide) (by decide) (by decide)
  have hNE : qmapValue (getDirectionalNeighbors nbr) "NE" (-1) = slotValue nbr 3 :=
    qmapValue_getDirectionalNeighbors nbr [0, 1, 2] [4, 5, 6, 7] 3
      (by decide) (by decide) (by decide) (by decide)
  have hN : qmapValue (getDirectionalNeighbors nbr) "N" (-1) = slotValue nbr 4 :=
    qmapValue_getDirectionalNeighbors nbr [0, 1, 2, 3] [5, 6, 7] 4
      (by decide) (by decide) (by decide) (by decide)
  have hNW : qmapValue (getDirectionalNeighbors nbr) "NW" (-1) = slotValue nbr 5 :=
    qmapValue_getDirectionalNeighbors nbr [0, 1, 2, 3, 4] [6, 7] 5
      (by decide) (by decide) (by decide) (by decide)
  have hW : qmapValue (getDirectionalNeighbors nbr) "W" (-1) = slotValue nbr 6 :=
    qmapValue_getDirectionalNeighbors nbr [0, 1, 2, 3, 4, 5] [7] 6
      (by decide) (by decide) (by decide) (by decide)
  have hSW : qmapValue (getDirectionalNeighbors nbr) "SW" (-1) = slotValue nbr 7 :=
    qmapValue_getDirectionalNeighbors nbr [0, 1, 2, 3, 4, 5, 6] [] 7
      (by decide) (by decide) (by decide) (by decide)
  constructor
  · simp only [createProper3x3Grid, compassNeighbor, directionSlot]
    rw [hS, hSE, hE, hNE, hN, hNW, hW, hSW]
  · simp only [createProper3x3Grid, cell]
    rfl

/-! ## Claim C2 -/

/-- C2: for every center pixel, order and neighbor assignment, the NxM grid
builder called with width 3 and height 3 returns exactly the grid of
createProper3x3Grid. -/
theorem C2_NxM_delegates_to_3x3 (centerPixel : Int) (order : Nat)
    (nbr : Fin 8 → Int) :
    createProperNxMGrid centerPixel order 3 3 nbr
      = createProper3x3Grid centerPixel nbr := by
  unfold createProperNxMGrid createProperNxMGridRun
  rw [if_pos ⟨rfl, rfl⟩]

/-! ## Characterisation of the NxM grid builder -/

theorem replicate_dims (w h : Nat) :
    gridDims (List.replicate h (List.replicate w (0 : Int))) h w := by
  refine ⟨List.length_replicate _ _, ?_⟩
  intro r hr
  rw [(List.mem_replicate.1 hr).2]
  exact List.length_replicate _ _

theorem cell_createProper3x3Grid_center (c : Int) (nbr : Fin 8 → Int) :
    cell (createProper3x3Grid c nbr) 1 1 = c := rfl

theorem createProper3x3Grid_dims (c : Int) (nbr : Fin 8 → Int) :
    gridDims (createProper3x3Grid c nbr) 3 3 := by
  refine ⟨rfl, ?_⟩
  intro r hr
  simp only [createProper3x3Grid, List.mem_cons, List.not_mem_nil, or_false] at hr
  rcases hr with rfl | rfl | rfl <;> rfl

theorem nxmPlace3x3_eq_writes (ref : Grid) (w h : Nat) (g : Grid) :
    nxmPlace3x3 ref w h g = writes (placeWrites ref w h) g := by
  simp only [nxmPlace3x3, placeWrites]
  refine Eq.trans (List.foldl_ext _ _ g ?_) (foldl_writes (List.range 3) _ g)
  intro gg y _
  exact foldl_writeGuard (List.range 3)
    (fun (x : Nat) =>
      0 ≤ ((w / 2 : Nat) : Int) - 1 + x ∧ ((w / 2 : Nat) : Int) - 1 + x < w ∧
        0 ≤ ((h / 2 : Nat) : Int) - 1 + y ∧ ((h / 2 : Nat) : Int) - 1 + y < h)
    (fun (x : Nat) =>
      ((((h / 2 : Nat) : Int) - 1 + y).toNat, (((w / 2 : Nat) : Int) - 1 + x).toNat,
        cell ref y x))
    gg

theorem nxmFillOuter_eq_writes (c : Int) (order : Nat) (w h : Nat) (g : Grid) :
    nxmFillOuter c order w h g = writes (outerWrites c order w h) g := by
  simp only [nxmFillOuter, outerWrites]
  refine Eq.trans (List.foldl_ext _ _ g ?_) (foldl_writes (List.range h) _ g)
  intro gg y _
  exact foldl_skipGuard (List.range w)
    (fun (x : Nat) =>
      ((w / 2 : Nat) : Int) - 1 ≤ x ∧ (x : Int) ≤ (w / 2 : Nat) + 1 ∧
        ((h / 2 : Nat) : Int) - 1 ≤ y ∧ (y : Int) ≤ (h / 2 : Nat) + 1)
    (fun (x : Nat) =>
      (y, x, estimatedPixel c order ((x : Int) - (w / 2 : Nat)) ((y : Int) - (h / 2 : Nat))))
    gg

theorem placeWrites_bounds (ref : Grid) (w h : Nat) :
    ∀ e ∈ placeWrites ref w h, e.1 < h ∧ e.2.1 < w := by
  intro e he
  simp only [placeWrites, List.mem_flatMap, List.mem_map, List.mem_filter,
    List.mem_range, decide_eq_true_eq] at he
  obtain ⟨y, _, x, ⟨_, hc⟩, he⟩ := he
  subst he
  dsimp only
  constructor
  · omega
  · omega

theorem outerWrites_bounds (c : Int) (order : Nat) (w h : Nat) :
    ∀ e ∈ outerWrites c order w h, e.1 < h ∧ e.2.1 < w := by
  intro e he
  simp only [outerWrites, List.mem_flatMap, List.mem_map, List.mem_filter,
    List.mem_range, decide_eq_true_eq] at he
  obtain ⟨y, hy, x, ⟨hx, _⟩, he⟩ := he
  subst he
  exact ⟨hy, hx⟩

theorem cell_outerWrites_box {c : Int} {order : Nat} {w h Y X : Nat} (g : Grid)
    (hbox : ((w / 2 : Nat) : Int) - 1 ≤ X ∧ (X : Int) ≤ (w / 2 : Nat) + 1 ∧
      ((h / 2 : Nat) : Int) - 1 ≤ Y ∧ (Y : Int) ≤ (h / 2 : Nat) + 1) :
    cell (writes (outerWrites c order w h) g) Y X = cell g Y X := by
  apply cell_writes_of_forall_ne
  intro e he
  simp only [outerWrites, List.mem_flatMap, List.mem_map, List.mem_filter,
    List.mem_range, decide_eq_true_eq] at he
  obtain ⟨y, _, x, ⟨_, hc⟩, he⟩ := he
  subst he
  intro hYX
  obtain ⟨h1, h2⟩ := hYX
  dsimp only at h1 h2
  apply hc
  refine ⟨by omega, by omega, by omega, by omega⟩

theorem cell_outerWrites_outside {c : Int} {order : Nat} {w h Y X : Nat} {g : Grid}
    (hd : gridDims g h w) (hY : Y < h) (hX : X < w)
    (hout : ¬(((w / 2 : Nat) : Int) - 1 ≤ X ∧ (X : Int) ≤ (w / 2 : Nat) + 1 ∧
      ((h / 2 : Nat) : Int) - 1 ≤ Y ∧ (Y : Int) ≤ (h / 2 : Nat) + 1)) :
    cell (writes (outerWrites c order w h) g) Y X
      = estimatedPixel c order ((X : Int) - (w / 2 : Nat)) ((Y : Int) - (h / 2 : Nat)) := by
  apply cell_writes_of_mem hd (outerWrites_bounds c order w h) hY hX
  · refine ⟨(Y, X,
      estimatedPixel c order ((X : Int) - (w / 2 : Nat)) ((Y : Int) - (h / 2 : Nat))),
      ?_, rfl, rfl⟩
    simp only [outerWrites, List.mem_flatMap, List.mem_map, List.mem_filter,
      List.mem_range, decide_eq_true_eq]
    exact ⟨Y, hY, X, ⟨hX, hout⟩, rfl⟩
  · intro e he h1 h2
    simp only [outerWrites, List.mem_flatMap, List.mem_map, List.mem_filter,
      List.mem_range, decide_eq_true_eq] at he
    obtain ⟨y, _, x, ⟨_, _⟩, he⟩ := he
    subst he
    dsimp only at h1 h2 ⊢
    subst h1
    subst h2
    rfl

theorem cell_placeWrites_target {ref : Grid} {w h : Nat} {g : Grid}
    (hd : gridDims g h w) {y x : Nat} (hy : y < 3) (hx : x < 3)
    (hc : 0 ≤ ((w / 2 : Nat) : Int) - 1 + x ∧ ((w / 2 : Nat) : Int) - 1 + x < w ∧
      0 ≤ ((h / 2 : Nat) : Int) - 1 + y ∧ ((h / 2 : Nat) : Int) - 1 + y < h) :
    cell (writes (placeWrites ref w h) g)
      (((h / 2 : Nat) : Int) - 1 + y).toNat (((w / 2 : Nat) : Int) - 1 + x).toNat
      = cell ref y x := by
  have hY : (((h / 2 : Nat) : Int) - 1 + y).toNat < h := by omega
  have hX : (((w / 2 : Nat) : Int) - 1 + x).toNat < w := by omega
  apply cell_writes_of_mem hd (placeWrites_bounds ref w h) hY hX
  · refine ⟨((((h / 2 : Nat) : Int) - 1 + y).toNat,
      (((w / 2 : Nat) : Int) - 1 + x).toNat, cell ref y x), ?_, rfl, rfl⟩
    simp only [placeWrites, List.mem_flatMap, List.mem_map, List.mem_filter,
      List.mem_range, decide_eq_true_eq]
    exact ⟨y, hy, x, ⟨hx, hc⟩, rfl⟩
  · intro e he h1 h2
    simp only [placeWrites, List.mem_flatMap, List.mem_map, List.mem_filter,
      List.mem_range, decide_eq_true_eq] at he
    obtain ⟨y', hy', x', ⟨hx', hc'⟩, he⟩ := he
    subst he
    dsimp only at h1 h2 ⊢
    have hyx : y' = y ∧ x' = x := by omega
    rw [hyx.1, hyx.2]

theorem nxm_centerValid (c : Int) (order : Nat) (w h : Nat) (nbr : Fin 8 → Int) :
    nxmCenterValid (createProper3x3Grid c nbr) w h
      (nxmFillOuter c order w h (nxmPlace3x3 (createProper3x3Grid c nbr) w h
        (List.replicate h (List.replicate w 0)))) = true := by
  simp only [nxmCenterValid, List.all_eq_true, List.mem_range]
  intro y hy x hx
  by_cases hc : 0 ≤ ((w / 2 : Nat) : Int) - 1 + x ∧ ((w / 2 : Nat) : Int) - 1 + x < w ∧
      0 ≤ ((h / 2 : Nat) : Int) - 1 + y ∧ ((h / 2 : Nat) : Int) - 1 + y < h
  · rw [if_pos hc, beq_iff_eq, nxmFillOuter_eq_writes, nxmPlace3x3_eq_writes,
      cell_outerWrites_box _ ⟨by omega, by omega, by omega, by omega⟩]
    exact cell_placeWrites_target (replicate_dims w h) hy hx hc
  · rw [if_neg hc]

theorem createProperNxMGridRun_eq (c : Int) (order : Nat) (w h : Nat)
    (nbr : Fin 8 → Int) (hne : ¬(w = 3 ∧ h = 3)) :
    createProperNxMGridRun c order w h nbr =
      (nxmFillOuter c order w h (nxmPlace3x3 (createProper3x3Grid c nbr) w h
        (List.replicate h (List.replicate w 0))), false) := by
  simp only [createProperNxMGridRun]
  rw [if_neg hne, if_pos (nxm_centerValid c order w h nbr)]

theorem createProperNxMGridRun_snd (c : Int) (order : Nat) (w h : Nat)
    (nbr : Fin 8 → Int) :
    (createProperNxMGridRun c order w h nbr).2 = false := by
  by_cases h33 : w = 3 ∧ h = 3
  · simp only [createProperNxMGridRun, if_pos h33]
  · rw [createProperNxMGridRun_eq c order w h nbr h33]

theorem createFallbackGrid_dims (c : Int) (order : Nat) (w h : Nat) :
    gridDims (createFallbackGrid c order w h) h w := by
  refine ⟨by simp [createFallbackGrid], ?_⟩
  intro r hr
  simp only [createFallbackGrid, List.mem_map] at hr
  obtain ⟨y, _, he⟩ := hr
  rw [← he]
  simp

theorem createFallbackGrid_cell (c : Int) (order : Nat) (w h : Nat) {y x : Nat}
    (hy : y < h) (hx : x < w) :
    cell (createFallbackGrid c order w h) y x
      = estimatedPixel c order ((x : Int) - (w / 2 : Nat)) ((y : Int) - (h / 2 : Nat)) := by
  simp only [createFallbackGrid, cell]
  rw [getD_map_range _ hy, getD_map_range _ hx]

theorem estimatedPixel_zero_offset (c : Int) (order : Nat) (h0 : 0 ≤ c)
    (hM : c ≤ maxPixelOf order) : estimatedPixel c order 0 0 = c := by
  simp only [estimatedPixel]
  have he : c + 0 * pixelSpacing order * 8 + 0 * pixelSpacing order = c := by ring
  rw [he]
  omega

/-! ## Claim C3 -/

/-- C3: for every requested width >= 1, height >= 1, order and center pixel
in the valid range [0, 12*nside^2 - 1], the grid of the NxM builder (on the
normal path, including the 3x3 delegation) and the fallback grid both have
exactly height rows of width cells, and the cell at row height/2, column
width/2 equals the originating center pixel. -/
theorem C3_dims_and_center (c : Int) (order : Nat) (w h : Nat)
    (nbr : Fin 8 → Int) (hw : 1 ≤ w) (hh : 1 ≤ h)
    (hc0 : 0 ≤ c) (hcM : c ≤ maxPixelOf order) :
    gridDims (createProperNxMGrid c order w h nbr) h w ∧
    cell (createProperNxMGrid c order w h nbr) (h / 2) (w / 2) = c ∧
    gridDims (createFallbackGrid c order w h) h w ∧
    cell (createFallbackGrid c order w h) (h / 2) (w / 2) = c := by
  have hfb : cell (createFallbackGrid c order w h) (h / 2) (w / 2) = c := by
    rw [createFallbackGrid_cell c order w h (by omega) (by omega)]
    have hx : ((w / 2 : Nat) : Int) - (w / 2 : Nat) = 0 := by omega
    have hy : ((h / 2 : Nat) : Int) - (h / 2 : Nat) = 0 := by omega
    rw [hx, hy]
    exact estimatedPixel_zero_offset c order hc0 hcM
  by_cases h33 : w = 3 ∧ h = 3
  · obtain ⟨hw3, hh3⟩ := h33
    subst hw3
    subst hh3
    have hdel : createProperNxMGrid c order 3 3 nbr = createProper3x3Grid c nbr := by
      unfold createProperNxMGrid createProperNxMGridRun
      rw [if_pos ⟨rfl, rfl⟩]
    rw [hdel]
    exact ⟨createProper3x3Grid_dims c nbr,
      cell_createProper3x3Grid_center c nbr,
      createFallbackGrid_dims c order 3 3, hfb⟩
  · have hgrid : createProperNxMGrid c order w h nbr
        = nxmFillOuter c order w h (nxmPlace3x3 (createProper3x3Grid c nbr) w h
          (List.replicate h (List.replicate w 0))) := by
      unfold createProperNxMGrid
      rw [createProperNxMGridRun_eq c order w h nbr h33]
    rw [hgrid, nxmFillOuter_eq_writes, nxmPlace3x3_eq_writes]
    have hdims₁ : gridDims (writes (placeWrites (createProper3x3Grid c nbr) w h)
        (List.replicate h (List.replicate w 0))) h w :=
      writes_dims (placeWrites_bounds _ w h) (replicate_dims w h)
    refine ⟨writes_dims (outerWrites_bounds c order w h) hdims₁, ?_,
      createFallbackGrid_dims c order w h, hfb⟩
    rw [cell_outerWrites_box _ ⟨by omega, by omega, by omega, by omega⟩]
    have h1 : (((h / 2 : Nat) : Int) - 1 + (1 : Nat)).toNat = h / 2 := by omega
    have h2 : (((w / 2 : Nat) : Int) - 1 + (1 : Nat)).toNat = w / 2 := by omega
    rw [← h1, ← h2,
      cell_placeWrites_target (replicate_dims w h) (by omega) (by omega)
        ⟨by omega, by omega, by omega, by omega⟩]
    exact cell_createProper3x3Grid_center c nbr

/-! ## Claim C4 -/

/-- C4: on every non-3x3 request, each cell outside the embedded center 3x3
block is the clamp into [0, 12*nside^2 - 1] of
centerPixel + deltaY * spacing * 8 + deltaX * spacing, with
spacing = max(1, nside / 32) and deltas taken from the grid center
(width/2, height/2); and the same formula fills every cell of the fallback
grid. -/
theorem C4_outer_cells_use_estimate (c : Int) (order : Nat) (w h : Nat)
    (nbr : Fin 8 → Int) (hne : ¬(w = 3 ∧ h = 3)) :
    (∀ y x : Nat, y < h → x < w →
      ¬(((w / 2 : Nat) : Int) - 1 ≤ x ∧ (x : Int) ≤ (w / 2 : Nat) + 1 ∧
        ((h / 2 : Nat) : Int) - 1 ≤ y ∧ (y : Int) ≤ (h / 2 : Nat) + 1) →
      cell (createProperNxMGrid c order w h nbr) y x
        = estimatedPixel c order ((x : Int) - (w / 2 : Nat)) ((y : Int) - (h / 2 : Nat))) ∧
    (∀ y x : Nat, y < h → x < w →
      cell (createFallbackGrid c order w h) y x
        = estimatedPixel c order ((x : Int) - (w / 2 : Nat)) ((y : Int) - (h / 2 : Nat))) := by
  constructor
  · intro y x hy hx hout
    have hgrid : createProperNxMGrid c order w h nbr
        = nxmFillOuter c order w h (nxmPlace3x3 (createProper3x3Grid c nbr) w h
          (List.replicate h (List.replicate w 0))) := by
      unfold createProperNxMGrid
      rw [createProperNxMGridRun_eq c order w h nbr hne]
    rw [hgrid, nxmFillOuter_eq_writes, nxmPlace3x3_eq_writes]
    exact cell_outerWrites_outside
      (writes_dims (placeWrites_bounds _ w h) (replicate_dims w h)) hy hx hout
  · intro y x hy hx
    exact createFallbackGrid_cell c order w h hy hx

/-! ## Claim C5 -/

/-- C5 counterexample: a concrete 4x4 request at order 8 whose grid has
coverage 50% (half the cells carry the -1 marker), observably below the 95%
bound of the coverage check, and yet the builder does not take the fallback
path. -/
theorem C5_counterexample :
    gridCoveragePasses (createProperNxMGrid 0 8 4 4 (fun _ => -1)) 4 4 = false ∧
    (createProperNxMGridRun 0 8 4 4 (fun _ => -1)).2 = false := by decide

/-- C5 amended: no grid request takes the fallback path on the non-exception
paths of createProperNxMGrid: the center-3x3 validation always succeeds, so
a 4x4 request with coverage below 95% still returns the heuristic grid, the
low coverage being observable only through the coverage metric. -/
theorem C5_amended_no_fallback (c : Int) (order : Nat) (w h : Nat)
    (nbr : Fin 8 → Int) :
    (createProperNxMGridRun c order w h nbr).2 = false :=
  createProperNxMGridRun_snd c order w h nbr

/-- Witness for C3 at the concrete input c = 5, order = 0, 4x4, no valid
neighbors. -/
theorem C3_witness :
    ((1 : Nat) ≤ 4 ∧ (1 : Nat) ≤ 4 ∧ (0 : Int) ≤ 5 ∧ (5 : Int) ≤ maxPixelOf 0) ∧
    (gridDims (createProperNxMGrid 5 0 4 4 (fun _ => -1)) 4 4 ∧
     cell (createProperNxMGrid 5 0 4 4 (fun _ => -1)) (4 / 2) (4 / 2) = 5 ∧
     gridDims (createFallbackGrid 5 0 4 4) 4 4 ∧
     cell (createFallbackGrid 5 0 4 4) (4 / 2) (4 / 2) = 5) :=
  ⟨⟨by decide, by decide, by decide, by decide⟩,
    C3_dims_and_center 5 0 4 4 (fun _ => -1) (by decide) (by decide)
      (by decide) (by decide)⟩

/-- Witness for C4 at the concrete input c = 5, order = 0, 4x4: the corner
cell (0,0) lies outside the center 3x3 block and carries the clamped
estimate, which evaluates to 0 there; the fallback grid agrees. -/
theorem C4_witness :
    ¬((4 : Nat) = 3 ∧ (4 : Nat) = 3) ∧
    cell (createProperNxMGrid 5 0 4 4 (fun _ => -1)) 0 0 = 0 ∧
    cell (createFallbackGrid 5 0 4 4) 0 0 = 0 := by
  have h := C4_outer_cells_use_estimate 5 0 4 4 (fun _ => -1) (by decide)
  refine ⟨by decide, ?_, ?_⟩
  · rw [h.1 0 0 (by decide) (by decide) (by decide)]
    decide
  · rw [h.2 0 0 (by decide) (by decide)]
    decide

/-! ## Characterisation of the mosaic assembler -/

theorem placeTiles_cons (t : SimpleTile) (l : List SimpleTile) (ts : Int)
    (acc : Image × Nat) :
    placeTiles (t :: l) ts acc = placeTiles l ts
      (match t.image with
        | none => acc
        | some img =>
            (drawImage acc.1 (t.gridX * ts) (t.gridY * ts) img, acc.2 + 1)) := rfl

theorem drawImage_width (canvas : Image) (x0 y0 : Int) (img : Image) :
    (drawImage canvas x0 y0 img).width = canvas.width := rfl

theorem drawImage_height (canvas : Image) (x0 y0 : Int) (img : Image) :
    (drawImage canvas x0 y0 img).height = canvas.height := rfl

theorem placeTiles_dims (tiles : List SimpleTile) (ts : Int) (acc : Image × Nat) :
    (placeTiles tiles ts acc).1.width = acc.1.width ∧
    (placeTiles tiles ts acc).1.height = acc.1.height := by
  induction tiles generalizing acc with
  | nil => exact ⟨rfl, rfl⟩
  | cons t l ih =>
      rw [placeTiles_cons]
      cases ht : t.image with
      | none => exact ih acc
      | some img => exact ih _

theorem placeTiles_count (tiles : List SimpleTile) (ts : Int) (acc : Image × Nat) :
    (placeTiles tiles ts acc).2
      = acc.2 + (tiles.filter fun t => t.image.isSome).length := by
  induction tiles generalizing acc with
  | nil => rfl
  | cons t l ih =>
      rw [placeTiles_cons]
      cases ht : t.image with
      | none =>
          rw [ih acc]
          have hf : (t :: l).filter (fun t => t.image.isSome)
              = l.filter (fun t => t.image.isSome) := by
            simp [List.filter_cons, ht]
          rw [hf]
      | some img =>
          rw [ih _]
          have hf : (t :: l).filter (fun t => t.image.isSome)
              = t :: l.filter (fun t => t.image.isSome) := by
            simp [List.filter_cons, ht]
          rw [hf]
          simp only [List.length_cons]
          omega

theorem placeTiles_pix_not_covered {tiles : List SimpleTile} {ts p q : Int}
    (acc : Image × Nat)
    (h : ∀ t ∈ tiles, ∀ img, t.image = some img → ¬ tileCovers t ts img p q) :
    (placeTiles tiles ts acc).1.pix p q = acc.1.pix p q := by
  induction tiles generalizing acc with
  | nil => rfl
  | cons t l ih =>
      rw [placeTiles_cons]
      cases ht : t.image with
      | none => exact ih acc (fun t' h' => h t' (List.mem_cons_of_mem _ h'))
      | some img =>
          rw [ih _ (fun t' h' => h t' (List.mem_cons_of_mem _ h'))]
          have hnc := h t (List.mem_cons_self _ _) img ht
          simp only [drawImage, tileCovers] at hnc ⊢
          rw [if_neg (by tauto)]

theorem placeTiles_pix_covered {tiles : List SimpleTile} {ts p q : Int}
    {t : SimpleTile} {img : Image} (acc : Image × Nat)
    (hmem : t ∈ tiles) (ht : t.image = some img)
    (hcov : tileCovers t ts img p q)
    (hcanvas : 0 ≤ p ∧ p < acc.1.width ∧ 0 ≤ q ∧ q < acc.1.height)
    (huniq : ∀ t' ∈ tiles, ∀ img', t'.image = some img' →
      tileCovers t' ts img' p q → t' = t ∧ img' = img) :
    (placeTiles tiles ts acc).1.pix p q
      = img.pix (p - t.gridX * ts) (q - t.gridY * ts) := by
  induction tiles generalizing acc with
  | nil => cases hmem
  | cons a l ih =>
      rw [placeTiles_cons]
      by_cases hl : ∃ t' ∈ l, ∃ img', t'.image = some img' ∧ tileCovers t' ts img' p q
      · obtain ⟨t', ht', img', himg', hcov'⟩ := hl
        obtain ⟨rfl, rfl⟩ := huniq t' (List.mem_cons_of_mem _ ht') img' himg' hcov'
        cases hai : a.image with
        | none =>
            exact ih acc ht' hcanvas
              (fun t'' h'' img'' hi'' hc'' =>
                huniq t'' (List.mem_cons_of_mem _ h'') img'' hi'' hc'')
        | some imga =>
            refine ih _ ht' ?_
              (fun t'' h'' img'' hi'' hc'' =>
                huniq t'' (List.mem_cons_of_mem _ h'') img'' hi'' hc'')
            simpa [drawImage] using hcanvas
      · have hat : a = t := by
          rcases List.mem_cons.1 hmem with h1 | h1
          · exact h1.symm
          · exact absurd ⟨t, h1, img, ht, hcov⟩ hl
        subst hat
        rw [ht]
        rw [placeTiles_pix_not_covered _
          (fun t' h' img' hi' => fun hc' => hl ⟨t', h', img', hi', hc'⟩)]
        simp only [drawImage, tileCovers] at hcov ⊢
        rw [if_pos (by tauto)]

/-! ## Claim C6 -/

/-- C6 counterexample: with a 3x3 grid and no downloaded tile images at all,
assembleFinalMosaic returns early and produces no mosaic, so assembly can
fail. -/
theorem C6_counterexample :
    assembleFinalMosaic 3 3
      (List.replicate 9 ⟨0, 0, ⟨0, 0⟩, none⟩) = none := rfl

/-- C6 amended: whenever at least one tile image was downloaded, every tile
sits at a distinct cell of the grid and tile images are at most
512x512, the assembler produces a raster of width gridWidth * 512 and height
gridHeight * 512 together with the count of cells filled, each downloaded
tile is drawn at (gridX * 512, gridY * 512), and every pixel of a cell
without imagery keeps the blank background colour; with no downloaded tile
at all the assembler instead returns no mosaic (see the counterexample). -/
theorem C6_amended_assembler (gridWidth gridHeight : Int)
    (tiles : List SimpleTile)
    (hsome : ∃ t ∈ tiles, t.image.isSome = true)
    (hcells : (tiles.map fun t => (t.gridX, t.gridY)).Nodup)
    (hgrid : ∀ t ∈ tiles, 0 ≤ t.gridX ∧ t.gridX < gridWidth ∧
      0 ≤ t.gridY ∧ t.gridY < gridHeight)
    (hsize : ∀ t ∈ tiles, ∀ img, t.image = some img →
      img.width ≤ 512 ∧ img.height ≤ 512) :
    ∃ m count, assembleFinalMosaic gridWidth gridHeight tiles = some (m, count) ∧
      m.width = gridWidth * 512 ∧ m.height = gridHeight * 512 ∧
      count = (tiles.filter fun t => t.image.isSome).length ∧
      (∀ cX cY dx dy : Int, 0 ≤ cX → cX < gridWidth → 0 ≤ cY → cY < gridHeight →
        0 ≤ dx → dx < 512 → 0 ≤ dy → dy < 512 →
        (∀ t ∈ tiles, t.image.isSome = true → ¬(t.gridX = cX ∧ t.gridY = cY)) →
        m.pix (cX * 512 + dx) (cY * 512 + dy) = black) ∧
      (∀ t ∈ tiles, ∀ img, t.image = some img → ∀ dx dy : Int,
        0 ≤ dx → dx < img.width → 0 ≤ dy → dy < img.height →
        m.pix (t.gridX * 512 + dx) (t.gridY * 512 + dy) = img.pix dx dy) := by
  have hne : (tiles.filter fun t => t.image.isSome).length ≠ 0 := by
    obtain ⟨t, htm, hts⟩ := hsome
    have hmf : t ∈ tiles.filter fun t => t.image.isSome :=
      List.mem_filter.2 ⟨htm, hts⟩
    have := List.length_pos.2 (List.ne_nil_of_mem hmf)
    omega
  have hasm : assembleFinalMosaic gridWidth gridHeight tiles
      = some (placeTiles tiles 512
          (⟨gridWidth * 512, gridHeight * 512, fun _ _ => black⟩, 0)) := by
    simp only [assembleFinalMosaic]
    rw [if_neg hne]
  refine ⟨(placeTiles tiles 512
      (⟨gridWidth * 512, gridHeight * 512, fun _ _ => black⟩, 0)).1,
    (placeTiles tiles 512
      (⟨gridWidth * 512, gridHeight * 512, fun _ _ => black⟩, 0)).2,
    by rw [hasm], ?_, ?_, ?_, ?_, ?_⟩
  · exact (placeTiles_dims tiles 512 _).1
  · exact (placeTiles_dims tiles 512 _).2
  · simpa using placeTiles_count tiles 512
      (⟨gridWidth * 512, gridHeight * 512, fun _ _ => black⟩, 0)
  · intro cX cY dx dy h1 h2 h3 h4 h5 h6 h7 h8 hempty
    rw [placeTiles_pix_not_covered _ ?_]
    intro t htm img himg hcov
    have hs := hsize t htm img himg
    have hcell : t.gridX = cX ∧ t.gridY = cY := by
      simp only [tileCovers] at hcov
      obtain ⟨hc1, hc2, hc3, hc4⟩ := hcov
      obtain ⟨hs1, hs2⟩ := hs
      constructor
      · omega
      · omega
    exact hempty t htm (by rw [himg]; rfl) hcell
  · intro t htm img himg dx dy h1 h2 h3 h4
    have hs := hsize t htm img himg
    have hg := hgrid t htm
    have hcov : tileCovers t 512 img (t.gridX * 512 + dx) (t.gridY * 512 + dy) := by
      simp only [tileCovers]
      refine ⟨by omega, by omega, by omega, by omega⟩
    have hcanvas : (0 : Int) ≤ t.gridX * 512 + dx ∧
        t.gridX * 512 + dx < gridWidth * 512 ∧
        (0 : Int) ≤ t.gridY * 512 + dy ∧
        t.gridY * 512 + dy < gridHeight * 512 := by
      obtain ⟨hg1, hg2, hg3, hg4⟩ := hg
      obtain ⟨hs1, hs2⟩ := hs
      refine ⟨by omega, by omega, by omega, by omega⟩
    have huniq : ∀ t' ∈ tiles, ∀ img', t'.image = some img' →
        tileCovers t' 512 img' (t.gridX * 512 + dx) (t.gridY * 512 + dy) →
        t' = t ∧ img' = img := by
      intro t' htm' img' himg' hcov'
      have hs' := hsize t' htm' img' himg'
      have hcell : t'.gridX = t.gridX ∧ t'.gridY = t.gridY := by
        simp only [tileCovers] at hcov'
        obtain ⟨hc1, hc2, hc3, hc4⟩ := hcov'
        obtain ⟨hs1', hs2'⟩ := hs'
        constructor
        · omega
        · omega
      have hteq : t' = t :=
        List.inj_on_of_nodup_map hcells htm' htm
          (by rw [hcell.1, hcell.2])
      refine ⟨hteq, ?_⟩
      rw [hteq] at himg'
      rw [himg] at himg'
      exact (Option.some.inj himg').symm
    have hpix := placeTiles_pix_covered
      (⟨gridWidth * 512, gridHeight * 512, fun _ _ => black⟩, 0)
      htm himg hcov hcanvas huniq
    have hx : t.gridX * 512 + dx - t.gridX * 512 = dx := by ring
    have hy : t.gridY * 512 + dy - t.gridY * 512 = dy := by ring
    rw [hx, hy] at hpix
    exact hpix

/-- Witness for the amended C6 at a concrete input: a 3x3 grid with one
downloaded 512x512 tile at cell (0,0) and one failed tile at (1,0). -/
theorem C6_witness :
    (∃ t ∈ [sampleTileA, sampleTileB], t.image.isSome = true) ∧
    ([sampleTileA, sampleTileB].map fun t => (t.gridX, t.gridY)).Nodup ∧
    (∀ t ∈ [sampleTileA, sampleTileB], 0 ≤ t.gridX ∧ t.gridX < 3 ∧
      0 ≤ t.gridY ∧ t.gridY < 3) ∧
    (∀ t ∈ [sampleTileA, sampleTileB], ∀ img, t.image = some img →
      img.width ≤ 512 ∧ img.height ≤ 512) ∧
    ∃ m count, assembleFinalMosaic 3 3 [sampleTileA, sampleTileB]
        = some (m, count) ∧
      m.width = 3 * 512 ∧ m.height = 3 * 512 ∧ count = 1 := by
  have hsome : ∃ t ∈ [sampleTileA, sampleTileB], t.image.isSome = true :=
    ⟨sampleTileA, List.mem_cons_self _ _, rfl⟩
  have hcells : ([sampleTileA, sampleTileB].map fun t => (t.gridX, t.gridY)).Nodup := by
    decide
  have hgrid : ∀ t ∈ [sampleTileA, sampleTileB], 0 ≤ t.gridX ∧ t.gridX < 3 ∧
      0 ≤ t.gridY ∧ t.gridY < 3 := by
    decide
  have hsize : ∀ t ∈ [sampleTileA, sampleTileB], ∀ img, t.image = some img →
      img.width ≤ 512 ∧ img.height ≤ 512 := by
    intro t ht img himg
    simp only [List.mem_cons, List.not_mem_nil, or_false] at ht
    rcases ht with rfl | rfl
    · simp only [sampleTileA] at himg
      cases Option.some.inj himg
      exact ⟨by decide, by decide⟩
    · simp only [sampleTileB] at himg
      cases himg
  obtain ⟨m, count, h1, h2, h3, h4, _⟩ :=
    C6_amended_assembler 3 3 [sampleTileA, sampleTileB] hsome hcells hgrid hsize
  refine ⟨hsome, hcells, hgrid, hsize, m, count, h1, h2, h3, ?_⟩
  rw [h4]
  decide

/-! ## The centering engine: basic facts -/

theorem atan2_nonneg_of_nonneg {y x : ℝ} (hy : 0 ≤ y) : 0 ≤ atan2 y x :=
  Complex.arg_nonneg_iff.2 hy

theorem atan2_le_pi (y x : ℝ) : atan2 y x ≤ Real.pi :=
  Complex.arg_le_pi _

theorem two_atan2_sqrt_nonneg (a b : ℝ) : 0 ≤ 2 * atan2 (Real.sqrt a) b := by
  have h := atan2_nonneg_of_nonneg (x := b) (Real.sqrt_nonneg a)
  linarith

theorem calculateAngularDistance_nonneg (p q : SkyPosition) :
    0 ≤ calculateAngularDistance p q := by
  simp only [calculateAngularDistance]
  exact two_atan2_sqrt_nonneg _ _

theorem DBL_MAX_pos : (0 : ℝ) < DBL_MAX := by
  unfold DBL_MAX
  positivity

theorem DBL_MAX_big : (7 : ℝ) < DBL_MAX := by
  unfold DBL_MAX
  have h1 : (2 : ℝ) ^ 3 ≤ (2 : ℝ) ^ 971 :=
    pow_le_pow_right₀ (by norm_num) (by norm_num)
  nlinarith

theorem two_atan2_lt_DBL_MAX (y x : ℝ) : 2 * atan2 y x < DBL_MAX := by
  have h := atan2_le_pi y x
  have hpi := Real.pi_lt_d2
  have hbig := DBL_MAX_big
  linarith

theorem calculateAngularDistance_lt_DBL_MAX (p q : SkyPosition) :
    calculateAngularDistance p q < DBL_MAX := by
  simp only [calculateAngularDistance]
  exact two_atan2_lt_DBL_MAX _ _

theorem calculateAngularDistance_self (p : SkyPosition) :
    calculateAngularDistance p p = 0 := by
  simp only [calculateAngularDistance, sub_self, zero_div, Real.sin_zero,
    mul_zero, zero_mul, add_zero, Real.sqrt_zero, sub_zero, Real.sqrt_one]
  have h1 : (⟨1, 0⟩ : ℂ) = 1 := Complex.ext (by simp) (by simp)
  simp only [atan2, h1, Complex.arg_one, mul_zero]

/-! ## The containing-tile search -/

theorem selectFold_no_update (target : SkyPosition) (tiles : List SimpleTile)
    (acc : Option SimpleTile × ℝ)
    (h : ∀ t ∈ tiles, ¬(calculateAngularDistance target t.skyCoordinates < acc.2)) :
    tiles.foldl (fun acc t =>
      if calculateAngularDistance target t.skyCoordinates < acc.2 then
        (some t, calculateAngularDistance target t.skyCoordinates)
      else acc) acc = acc := by
  induction tiles with
  | nil => rfl
  | cons t l ih =>
      rw [List.foldl_cons, if_neg (h t (List.mem_cons_self _ _))]
      exact ih (fun t' h' => h t' (List.mem_cons_of_mem _ h'))

theorem selectFold_zero (target : SkyPosition) (tiles : List SimpleTile)
    (acc : Option SimpleTile × ℝ) (hpos : 0 < acc.2)
    (hex : ∃ t ∈ tiles, calculateAngularDistance target t.skyCoordinates = 0) :
    ∃ c ∈ tiles,
      (tiles.foldl (fun acc t =>
        if calculateAngularDistance target t.skyCoordinates < acc.2 then
          (some t, calculateAngularDistance target t.skyCoordinates)
        else acc) acc).1 = some c ∧
      calculateAngularDistance target c.skyCoordinates = 0 := by
  induction tiles generalizing acc with
  | nil => simp at hex
  | cons t l ih =>
      by_cases hd : calculateAngularDistance target t.skyCoordinates = 0
      · have hlt : calculateAngularDistance target t.skyCoordinates < acc.2 := by
          rw [hd]
          exact hpos
        rw [List.foldl_cons, if_pos hlt]
        rw [selectFold_no_update target l _ (fun t' _ hlt' => by
          have h0 := calculateAngularDistance_nonneg target t'.skyCoordinates
          simp only [hd] at hlt'
          linarith)]
        exact ⟨t, List.mem_cons_self _ _, rfl, hd⟩
      · have hex' : ∃ t' ∈ l, calculateAngularDistance target t'.skyCoordinates = 0 := by
          obtain ⟨t₀, ht₀, h0⟩ := hex
          rcases List.mem_cons.1 ht₀ with rfl | hmem
          · exact absurd h0 hd
          · exact ⟨t₀, hmem, h0⟩
        rw [List.foldl_cons]
        by_cases hlt : calculateAngularDistance target t.skyCoordinates < acc.2
        · rw [if_pos hlt]
          have hpos' : (0 : ℝ) < calculateAngularDistance target t.skyCoordinates := by
            have := calculateAngularDistance_nonneg target t.skyCoordinates
            rcases lt_or_eq_of_le this with h1 | h1
            · exact h1
            · exact absurd h1.symm hd
          obtain ⟨c, hc, h1, h2⟩ := ih (some t,
            calculateAngularDistance target t.skyCoordinates) hpos' hex'
          exact ⟨c, List.mem_cons_of_mem _ hc, h1, h2⟩
        · rw [if_neg hlt]
          obtain ⟨c, hc, h1, h2⟩ := ih acc hpos hex'
          exact ⟨c, List.mem_cons_of_mem _ hc, h1, h2⟩

theorem findContainingTile_zero (target : SkyPosition) (tiles : List SimpleTile)
    (hex : ∃ t ∈ tiles, calculateAngularDistance target t.skyCoordinates = 0) :
    ∃ c ∈ tiles, (findContainingTile target tiles).1 = some c ∧
      calculateAngularDistance target c.skyCoordinates = 0 := by
  unfold findContainingTile
  exact selectFold_zero target tiles (none, DBL_MAX) DBL_MAX_pos hex

/-! ## Distance zero forces coinciding coordinates (within the data-model
coordinate ranges: right ascension in [0, 360), declination in [-90, 90];
at the poles the cos(dec) factor vanishes instead). -/

theorem cos_deg2rad_nonneg {d : ℝ} (h1 : -90 ≤ d) (h2 : d ≤ 90) :
    0 ≤ Real.cos (deg2rad d) := by
  have hpi := Real.pi_pos
  refine Real.cos_nonneg_of_mem_Icc ⟨?_, ?_⟩
  · unfold deg2rad
    nlinarith
  · unfold deg2rad
    nlinarith

theorem dist_zero_components {p q : SkyPosition}
    (hpr1 : 0 ≤ p.ra_deg) (hpr2 : p.ra_deg < 360)
    (hpd1 : -90 ≤ p.dec_deg) (hpd2 : p.dec_deg ≤ 90)
    (hqr1 : 0 ≤ q.ra_deg) (hqr2 : q.ra_deg < 360)
    (hqd1 : -90 ≤ q.dec_deg) (hqd2 : q.dec_deg ≤ 90)
    (hd : calculateAngularDistance p q = 0) :
    q.dec_deg = p.dec_deg ∧
      (q.ra_deg = p.ra_deg ∨ Real.cos (deg2rad p.dec_deg) = 0) := by
  have hpi := Real.pi_pos
  simp only [calculateAngularDistance] at hd
  set s1 := Real.sin ((deg2rad q.dec_deg - deg2rad p.dec_deg) / 2) with hs1
  set s2 := Real.sin ((deg2rad q.ra_deg - deg2rad p.ra_deg) / 2) with hs2
  set c1 := Real.cos (deg2rad p.dec_deg) with hc1
  set c2 := Real.cos (deg2rad q.dec_deg) with hc2
  set a := s1 * s1 + c1 * c2 * s2 * s2 with ha
  have harg : atan2 (Real.sqrt a) (Real.sqrt (1 - a)) = 0 := by linarith
  have him : Real.sqrt a = 0 :=
    ((Complex.arg_eq_zero_iff (z := ⟨Real.sqrt (1 - a), Real.sqrt a⟩)).1 harg).2
  have hale : a ≤ 0 := Real.sqrt_eq_zero'.1 him
  have hc1n : 0 ≤ c1 := by
    rw [hc1]
    exact cos_deg2rad_nonneg hpd1 hpd2
  have hc2n : 0 ≤ c2 := by
    rw [hc2]
    exact cos_deg2rad_nonneg hqd1 hqd2
  have hs1sq : 0 ≤ s1 * s1 := mul_self_nonneg s1
  have hs2sq : 0 ≤ s2 * s2 := mul_self_nonneg s2
  have hterm2 : 0 ≤ c1 * c2 * s2 * s2 := by
    have h12 : 0 ≤ c1 * c2 := mul_nonneg hc1n hc2n
    calc (0 : ℝ) ≤ (c1 * c2) * (s2 * s2) := mul_nonneg h12 hs2sq
    _ = c1 * c2 * s2 * s2 := by ring
  have hs1z : s1 = 0 := by
    have h0 : s1 * s1 = 0 := by linarith [ha.symm.le, ha.symm.ge]
    exact mul_self_eq_zero.1 h0
  have hterm2z : c1 * c2 * s2 * s2 = 0 := by
    have hss : s1 * s1 = 0 := mul_self_eq_zero.2 hs1z
    linarith [ha.symm.le, ha.symm.ge]
  have hdec : q.dec_deg = p.dec_deg := by
    have hhalf1 : -Real.pi < (deg2rad q.dec_deg - deg2rad p.dec_deg) / 2 := by
      unfold deg2rad
      nlinarith [mul_pos hpi (show (0 : ℝ) < q.dec_deg - p.dec_deg + 360 by linarith)]
    have hhalf2 : (deg2rad q.dec_deg - deg2rad p.dec_deg) / 2 < Real.pi := by
      unfold deg2rad
      nlinarith [mul_pos hpi (show (0 : ℝ) < 360 - (q.dec_deg - p.dec_deg) by linarith)]
    have h0 := (Real.sin_eq_zero_iff_of_lt_of_lt hhalf1 hhalf2).1 (by rw [← hs1]; exact hs1z)
    unfold deg2rad at h0
    have hAB : q.dec_deg * Real.pi = p.dec_deg * Real.pi := by linarith
    exact mul_right_cancel₀ Real.pi_ne_zero hAB
  refine ⟨hdec, ?_⟩
  have hra_of : s2 = 0 → q.ra_deg = p.ra_deg := by
    intro hz
    have hhalf1 : -Real.pi < (deg2rad q.ra_deg - deg2rad p.ra_deg) / 2 := by
      unfold deg2rad
      nlinarith [mul_pos hpi (show (0 : ℝ) < q.ra_deg - p.ra_deg + 360 by linarith)]
    have hhalf2 : (deg2rad q.ra_deg - deg2rad p.ra_deg) / 2 < Real.pi := by
      unfold deg2rad
      nlinarith [mul_pos hpi (show (0 : ℝ) < 360 - (q.ra_deg - p.ra_deg) by linarith)]
    have h0 := (Real.sin_eq_zero_iff_of_lt_of_lt hhalf1 hhalf2).1 (by rw [← hs2]; exact hz)
    unfold deg2rad at h0
    have hAB : q.ra_deg * Real.pi = p.ra_deg * Real.pi := by linarith
    exact mul_right_cancel₀ Real.pi_ne_zero hAB
  have hcc : c2 = c1 := by
    rw [hc1, hc2, hdec]
  rw [hcc] at hterm2z
  rcases mul_eq_zero.1 hterm2z with h1 | h1
  · rcases mul_eq_zero.1 h1 with h2 | h2
    · rcases mul_eq_zero.1 h2 with h3 | h3
      · right
        rw [hc1] at h3
        exact h3
      · right
        rw [hc1] at h3
        exact h3
    · left
      exact hra_of h2
  · left
    exact hra_of h1

theorem pixelOffset_zero {target cSky : SkyPosition}
    (hdec : cSky.dec_deg = target.dec_deg)
    (hra : cSky.ra_deg = target.ra_deg ∨ Real.cos (deg2rad target.dec_deg) = 0) :
    pixelOffset target cSky = (0, 0) := by
  simp only [pixelOffset]
  rcases hra with h | h
  · rw [hdec, h]
    norm_num [ARCSEC_PER_PIXEL]
  · rw [hdec, h]
    norm_num [ARCSEC_PER_PIXEL]

theorem cround_zero : cround 0 = 0 := by
  simp only [cround]
  rw [if_neg (lt_irrefl (0 : ℝ))]
  rw [zero_add]
  rw [show ((1 : ℝ) / 2) = (2 : ℝ)⁻¹ by norm_num]
  rw [Int.floor_eq_zero_iff.2 (by constructor <;> norm_num)]

/-! ## Claim C7 -/

/-- C7: when the target coordinate is exactly the resolved center of some
grid cell (all coordinates within the ranges of the data model, grid coordinates
within the fixed 3x3 grid), the selected cell has haversine distance 0 to
the target, the pixel offset computed from it is (0, 0), and the absolute
anchor position is the tile-center pixel of that cell
(gridX * 512 + 256, gridY * 512 + 256). -/
theorem C7_exact_target_hits_tile_center (target : SkyPosition)
    (tiles : List SimpleTile) (i : Nat) (hi : i < tiles.length)
    (heq : (tiles.get ⟨i, hi⟩).skyCoordinates = target)
    (htr : 0 ≤ target.ra_deg ∧ target.ra_deg < 360 ∧
      -90 ≤ target.dec_deg ∧ target.dec_deg ≤ 90)
    (hranges : ∀ t ∈ tiles, 0 ≤ t.skyCoordinates.ra_deg ∧
      t.skyCoordinates.ra_deg < 360 ∧
      -90 ≤ t.skyCoordinates.dec_deg ∧ t.skyCoordinates.dec_deg ≤ 90)
    (hgrid : ∀ t ∈ tiles, 0 ≤ t.gridX ∧ t.gridX ≤ 2 ∧
      0 ≤ t.gridY ∧ t.gridY ≤ 2) :
    ∃ c ∈ tiles, (findContainingTile target tiles).1 = some c ∧
      calculateAngularDistance target c.skyCoordinates = 0 ∧
      pixelOffset target c.skyCoordinates = (0, 0) ∧
      calculateTargetPixelPosition target tiles
        = (c.gridX * 512 + 256, c.gridY * 512 + 256) := by
  have hex : ∃ t ∈ tiles, calculateAngularDistance target t.skyCoordinates = 0 :=
    ⟨tiles.get ⟨i, hi⟩, List.get_mem _ _ _, by
      rw [heq]
      exact calculateAngularDistance_self target⟩
  obtain ⟨c, hc, hsel, hdist⟩ := findContainingTile_zero target tiles hex
  have hcr := hranges c hc
  have hcomp := dist_zero_components htr.1 htr.2.1 htr.2.2.1 htr.2.2.2
    hcr.1 hcr.2.1 hcr.2.2.1 hcr.2.2.2 hdist
  have hoff : pixelOffset target c.skyCoordinates = (0, 0) :=
    pixelOffset_zero hcomp.1 hcomp.2
  refine ⟨c, hc, hsel, hdist, hoff, ?_⟩
  have hg := hgrid c hc
  simp only [calculateTargetPixelPosition, hsel, hoff, cround_zero]
  rw [if_neg (by norm_num)]
  rw [Prod.mk.injEq]
  constructor
  · omega
  · omega

/-- Witness for C7 at a concrete input: a single tile at grid cell (1, 1)
whose resolved center (RA 10, Dec 20) equals the target exactly. -/
theorem C7_witness :
    (0 < [sampleTileC7].length) ∧
    ([sampleTileC7].get ⟨0, Nat.one_pos⟩).skyCoordinates = sampleTargetC7 ∧
    (0 ≤ sampleTargetC7.ra_deg ∧ sampleTargetC7.ra_deg < 360 ∧
      -90 ≤ sampleTargetC7.dec_deg ∧ sampleTargetC7.dec_deg ≤ 90) ∧
    (∀ t ∈ [sampleTileC7], 0 ≤ t.skyCoordinates.ra_deg ∧
      t.skyCoordinates.ra_deg < 360 ∧
      -90 ≤ t.skyCoordinates.dec_deg ∧ t.skyCoordinates.dec_deg ≤ 90) ∧
    (∀ t ∈ [sampleTileC7], 0 ≤ t.gridX ∧ t.gridX ≤ 2 ∧
      0 ≤ t.gridY ∧ t.gridY ≤ 2) ∧
    ∃ c ∈ [sampleTileC7],
      (findContainingTile sampleTargetC7 [sampleTileC7]).1 = some c ∧
      calculateAngularDistance sampleTargetC7 c.skyCoordinates = 0 ∧
      pixelOffset sampleTargetC7 c.skyCoordinates = (0, 0) ∧
      calculateTargetPixelPosition sampleTargetC7 [sampleTileC7]
        = (c.gridX * 512 + 256, c.gridY * 512 + 256) := by
  have hi : 0 < [sampleTileC7].length := Nat.one_pos
  have heq : ([sampleTileC7].get ⟨0, hi⟩).skyCoordinates = sampleTargetC7 := rfl
  have htr : 0 ≤ sampleTargetC7.ra_deg ∧ sampleTargetC7.ra_deg < 360 ∧
      -90 ≤ sampleTargetC7.dec_deg ∧ sampleTargetC7.dec_deg ≤ 90 := by
    norm_num [sampleTargetC7]
  have hranges : ∀ t ∈ [sampleTileC7], 0 ≤ t.skyCoordinates.ra_deg ∧
      t.skyCoordinates.ra_deg < 360 ∧
      -90 ≤ t.skyCoordinates.dec_deg ∧ t.skyCoordinates.dec_deg ≤ 90 := by
    intro t ht
    rw [List.mem_singleton] at ht
    subst ht
    norm_num [sampleTileC7]
  have hgrid : ∀ t ∈ [sampleTileC7], 0 ≤ t.gridX ∧ t.gridX ≤ 2 ∧
      0 ≤ t.gridY ∧ t.gridY ≤ 2 := by
    intro t ht
    rw [List.mem_singleton] at ht
    subst ht
    norm_num [sampleTileC7]
  exact ⟨hi, heq, htr, hranges, hgrid,
    C7_exact_target_hits_tile_center sampleTargetC7 [sampleTileC7] 0 hi heq
      htr hranges hgrid⟩

/-! ## Claim C8 -/

/-- C8: whenever the computed pixel offset from the center of the selected cell
exceeds 400 pixels in absolute value in either component, the centering
computation discards the offset and returns the geometric center
(768, 768) of the 1536x1536 raw mosaic. -/
theorem C8_sanity_bound_falls_back (target : SkyPosition)
    (tiles : List SimpleTile) (c : SimpleTile)
    (hsel : (findContainingTile target tiles).1 = some c)
    (hoff : 400 < |(pixelOffset target c.skyCoordinates).1| ∨
      400 < |(pixelOffset target c.skyCoordinates).2|) :
    calculateTargetPixelPosition target tiles = (768, 768) := by
  simp only [calculateTargetPixelPosition, hsel]
  rw [if_pos hoff]
  rfl

/-- Witness for C8 at a concrete input: target RA 1 degree away from the
selected tile center at the equator, giving an offset of 3600/1.61 (over
2200) pixels, far beyond the 400-pixel bound. -/
theorem C8_witness :
    (findContainingTile sampleTargetC8 [sampleTileC8]).1 = some sampleTileC8 ∧
    400 < |(pixelOffset sampleTargetC8 sampleTileC8.skyCoordinates).1| ∧
    calculateTargetPixelPosition sampleTargetC8 [sampleTileC8] = (768, 768) := by
  have hsel : (findContainingTile sampleTargetC8 [sampleTileC8]).1
      = some sampleTileC8 := by
    unfold findContainingTile
    rw [List.foldl_cons, List.foldl_nil,
      if_pos (calculateAngularDistance_lt_DBL_MAX sampleTargetC8
        sampleTileC8.skyCoordinates)]
  have hoff : 400 < |(pixelOffset sampleTargetC8 sampleTileC8.skyCoordinates).1| := by
    simp only [pixelOffset, sampleTargetC8, sampleTileC8, ARCSEC_PER_PIXEL, deg2rad,
      zero_mul, zero_div, Real.cos_zero]
    rw [abs_of_pos (by norm_num)]
    norm_num
  exact ⟨hsel, hoff,
    C8_sanity_bound_falls_back sampleTargetC8 [sampleTileC8] sampleTileC8 hsel
      (Or.inl hoff)⟩

/-! ## Claim C9 -/

theorem cropRect_spec (mw mh tx ty : Int)
    (hw : 0 < mw) (hh : 0 < mh) (hx1 : 0 ≤ tx) (hx2 : tx < mw)
    (hy1 : 0 ≤ ty) (hy2 : ty < mh) :
    (cropRect mw mh tx ty).2.2 = cropSizeOf mw mh ∧
    0 ≤ (cropRect mw mh tx ty).1 ∧
    (cropRect mw mh tx ty).1 + cropSizeOf mw mh ≤ mw ∧
    0 ≤ (cropRect mw mh tx ty).2.1 ∧
    (cropRect mw mh tx ty).2.1 + cropSizeOf mw mh ≤ mh ∧
    (cropSizeOf mw mh / 2 ≤ tx →
      tx + (cropSizeOf mw mh - cropSizeOf mw mh / 2) ≤ mw →
      tx - (cropRect mw mh tx ty).1 = cropSizeOf mw mh / 2) ∧
    (cropSizeOf mw mh / 2 ≤ ty →
      ty + (cropSizeOf mw mh - cropSizeOf mw mh / 2) ≤ mh →
      ty - (cropRect mw mh tx ty).2.1 = cropSizeOf mw mh / 2) := by
  simp only [cropRect]
  split_ifs <;>
    (refine ⟨trivial, ?_, ?_, ?_, ?_, ?_, ?_⟩ <;> intros <;>
      simp only [cropSizeOf] at * <;> omega)

/-- C9: on every mosaic with positive dimensions and in-bounds target pixel,
cropMosaicToCenter returns a square image of side min(1200, width, height)
whose source rectangle lies entirely inside the mosaic; and if the target
pixel is at least half the crop size away from every mosaic edge, the target
pixel lands exactly at the center pixel of the output. -/
theorem C9_crop_stays_inside_and_centers (mosaic : Image) (tx ty : Int)
    (hw : 0 < mosaic.width) (hh : 0 < mosaic.height)
    (hx1 : 0 ≤ tx) (hx2 : tx < mosaic.width)
    (hy1 : 0 ≤ ty) (hy2 : ty < mosaic.height) :
    (cropMosaicToCenter mosaic tx ty).width = cropSizeOf mosaic.width mosaic.height ∧
    (cropMosaicToCenter mosaic tx ty).height = cropSizeOf mosaic.width mosaic.height ∧
    0 ≤ (cropRect mosaic.width mosaic.height tx ty).1 ∧
    (cropRect mosaic.width mosaic.height tx ty).1
      + cropSizeOf mosaic.width mosaic.height ≤ mosaic.width ∧
    0 ≤ (cropRect mosaic.width mosaic.height tx ty).2.1 ∧
    (cropRect mosaic.width mosaic.height tx ty).2.1
      + cropSizeOf mosaic.width mosaic.height ≤ mosaic.height ∧
    (cropSizeOf mosaic.width mosaic.height / 2 ≤ tx →
      tx + (cropSizeOf mosaic.width mosaic.height
        - cropSizeOf mosaic.width mosaic.height / 2) ≤ mosaic.width →
      cropSizeOf mosaic.width mosaic.height / 2 ≤ ty →
      ty + (cropSizeOf mosaic.width mosaic.height
        - cropSizeOf mosaic.width mosaic.height / 2) ≤ mosaic.height →
      (cropMosaicToCenter mosaic tx ty).pix
          (cropSizeOf mosaic.width mosaic.height / 2)
          (cropSizeOf mosaic.width mosaic.height / 2)
        = mosaic.pix tx ty) := by
  obtain ⟨h0, h1, h2, h3, h4, h5, h6⟩ :=
    cropRect_spec mosaic.width mosaic.height tx ty hw hh hx1 hx2 hy1 hy2
  refine ⟨?_, ?_, h1, h2, h3, h4, ?_⟩
  · simp only [cropMosaicToCenter, copyRect]
    exact h0
  · simp only [cropMosaicToCenter, copyRect]
    exact h0
  · intro ha hb hc hd
    have hcx : (cropRect mosaic.width mosaic.height tx ty).1
        + cropSizeOf mosaic.width mosaic.height / 2 = tx := by
      have := h5 ha hb
      omega
    have hcy : (cropRect mosaic.width mosaic.height tx ty).2.1
        + cropSizeOf mosaic.width mosaic.height / 2 = ty := by
      have := h6 hc hd
      omega
    simp only [cropMosaicToCenter, copyRect]
    rw [hcx, hcy]

/-- Witness for C9 at a concrete input: the 1536x1536 raw mosaic with the
anchor at its geometric center (768, 768); the 1200-pixel window fits
without shifting and the anchor lands at the output center (600, 600). -/
theorem C9_witness :
    ((0 : Int) < sampleMosaic.width ∧ (0 : Int) < sampleMosaic.height ∧
      (0 : Int) ≤ 768 ∧ (768 : Int) < sampleMosaic.width ∧
      (0 : Int) ≤ 768 ∧ (768 : Int) < sampleMosaic.height) ∧
    (cropMosaicToCenter sampleMosaic 768 768).width
      = cropSizeOf sampleMosaic.width sampleMosaic.height ∧
    (cropMosaicToCenter sampleMosaic 768 768).pix 600 600
      = sampleMosaic.pix 768 768 := by
  have h := C9_crop_stays_inside_and_centers sampleMosaic 768 768
    (by decide) (by decide) (by decide) (by decide) (by decide) (by decide)
  refine ⟨⟨by decide, by decide, by decide, by decide, by decide, by decide⟩,
    h.1, ?_⟩
  have hc := h.2.2.2.2.2.2 (by decide) (by decide) (by decide) (by decide)
  have h600 : cropSizeOf sampleMosaic.width sampleMosaic.height / 2 = 600 := by decide
  rw [h600] at hc
  exact hc

/-! ## Claim C10 -/

theorem buildDSSUrl_eq (survey : String) (order : Nat) {pixel : Int}
    (h : 0 ≤ pixel) :
    buildDSSUrl survey order pixel
      = specTileUrl (surveyLookup survey).baseUrl order pixel
          (surveyLookup survey).format := by
  simp only [buildDSSUrl, specTileUrl]
  rw [if_neg (by omega)]

theorem buildRubinUrl_eq (survey : String) (order : Nat) {pixel : Int}
    (h : 0 ≤ pixel) :
    buildRubinUrl survey order pixel
      = specTileUrl (surveyLookup survey).baseUrl order pixel
          (surveyLookup survey).format := by
  simp only [buildRubinUrl, specTileUrl]
  rw [if_neg (by omega)]

theorem buildGenericHipsUrl_eq (baseUrl format : String) (order : Nat)
    {pixel : Int} (h : 0 ≤ pixel) :
    buildGenericHipsUrl baseUrl format order pixel
      = specTileUrl baseUrl order pixel format := by
  simp only [buildGenericHipsUrl, specTileUrl]
  rw [if_neg (by omega)]

theorem buildDSSUrl_sentinel (survey : String) (order : Nat) {pixel : Int}
    (h : pixel < 0) : buildDSSUrl survey order pixel = "" := by
  simp only [buildDSSUrl]
  rw [if_pos h]

theorem buildRubinUrl_sentinel (survey : String) (order : Nat) {pixel : Int}
    (h : pixel < 0) : buildRubinUrl survey order pixel = "" := by
  simp only [buildRubinUrl]
  rw [if_pos h]

theorem buildGenericHipsUrl_sentinel (baseUrl format : String) (order : Nat)
    {pixel : Int} (h : pixel < 0) :
    buildGenericHipsUrl baseUrl format order pixel = "" := by
  simp only [buildGenericHipsUrl]
  rw [if_pos h]

/-- C10: for every survey name in the registry and every non-negative pixel
id, buildTileUrl produces exactly
{baseUrl}/Norder{order}/Dir{dirBucket}/Npix{pixel}.{format} with
dirBucket = (pixel / 10000) * 10000, regardless of which survey-specific
branch is taken; it returns the empty string when the survey name is not in
the registry, and for the -1 failure sentinel. -/
theorem C10_buildTileUrl_pattern (surveyName : String) (order : Nat)
    (pixel : Int) :
    (surveyName ∈ surveys.map Prod.fst → 0 ≤ pixel →
      buildTileUrl surveyName order pixel
        = specTileUrl (surveyLookup surveyName).baseUrl order pixel
            (surveyLookup surveyName).format) ∧
    (surveyName ∉ surveys.map Prod.fst →
      buildTileUrl surveyName order pixel = "") ∧
    buildTileUrl surveyName order (-1) = "" := by
  have hmem_iff : surveyName ∈ surveys.map Prod.fst ↔
      surveysContains surveyName = true := by
    simp only [surveysContains, List.any_eq_true, decide_eq_true_eq,
      List.mem_map]
  refine ⟨?_, ?_, ?_⟩
  · intro hmem hpix
    simp only [surveys, List.map_cons, List.map_nil, List.mem_cons,
      List.not_mem_nil, or_false] at hmem
    rcases hmem with rfl | rfl | rfl | rfl | rfl | rfl | rfl | rfl
    · simp only [buildTileUrl]
      rw [if_neg (by decide), if_pos (by decide)]
      exact buildDSSUrl_eq _ _ hpix
    · simp only [buildTileUrl]
      rw [if_neg (by decide), if_neg (by decide), if_pos (by decide)]
      exact buildDSSUrl_eq _ _ hpix
    · simp only [buildTileUrl]
      rw [if_neg (by decide), if_neg (by decide), if_pos (by decide)]
      exact buildDSSUrl_eq _ _ hpix
    · simp only [buildTileUrl]
      rw [if_neg (by decide), if_pos (by decide)]
      exact buildDSSUrl_eq _ _ hpix
    · simp only [buildTileUrl]
      rw [if_neg (by decide), if_neg (by decide), if_neg (by decide),
        if_neg (by decide)]
      exact buildGenericHipsUrl_eq _ _ _ hpix
    · simp only [buildTileUrl]
      rw [if_neg (by decide), if_neg (by decide), if_neg (by decide),
        if_neg (by decide)]
      exact buildGenericHipsUrl_eq _ _ _ hpix
    · simp only [buildTileUrl]
      rw [if_neg (by decide), if_pos (by decide)]
      exact buildDSSUrl_eq _ _ hpix
    · simp only [buildTileUrl]
      rw [if_neg (by decide), if_neg (by decide), if_neg (by decide),
        if_pos (by decide)]
      exact buildRubinUrl_eq _ _ hpix
  · intro hnot
    have hc : ¬ surveysContains surveyName = true := fun hc =>
      hnot (hmem_iff.2 hc)
    simp only [buildTileUrl]
    rw [if_pos (by simp [Bool.eq_false_iff.2 hc])]
  · by_cases hmem : surveyName ∈ surveys.map Prod.fst
    · simp only [surveys, List.map_cons, List.map_nil, List.mem_cons,
        List.not_mem_nil, or_false] at hmem
      rcases hmem with rfl | rfl | rfl | rfl | rfl | rfl | rfl | rfl
      · simp only [buildTileUrl]
        rw [if_neg (by decide), if_pos (by decide)]
        exact buildDSSUrl_sentinel _ _ (by decide)
      · simp only [buildTileUrl]
        rw [if_neg (by decide), if_neg (by decide), if_pos (by decide)]
        exact buildDSSUrl_sentinel _ _ (by decide)
      · simp only [buildTileUrl]
        rw [if_neg (by decide), if_neg (by decide), if_pos (by decide)]
        exact buildDSSUrl_sentinel _ _ (by decide)
      · simp only [buildTileUrl]
        rw [if_neg (by decide), if_pos (by decide)]
        exact buildDSSUrl_sentinel _ _ (by decide)
      · simp only [buildTileUrl]
        rw [if_neg (by decide), if_neg (by decide), if_neg (by decide),
          if_neg (by decide)]
        exact buildGenericHipsUrl_sentinel _ _ _ (by decide)
      · simp only [buildTileUrl]
        rw [if_neg (by decide), if_neg (by decide), if_neg (by decide),
          if_neg (by decide)]
        exact buildGenericHipsUrl_sentinel _ _ _ (by decide)
      · simp only [buildTileUrl]
        rw [if_neg (by decide), if_pos (by decide)]
        exact buildDSSUrl_sentinel _ _ (by decide)
      · simp only [buildTileUrl]
        rw [if_neg (by decide), if_neg (by decide), if_neg (by decide),
          if_pos (by decide)]
        exact buildRubinUrl_sentinel _ _ (by decide)
    · have hc : ¬ surveysContains surveyName = true := fun hc =>
        hmem (hmem_iff.2 hc)
      simp only [buildTileUrl]
      rw [if_pos (by simp [Bool.eq_false_iff.2 hc])]

/-- Witness for C10 at a concrete input: the Gaia survey, order 6, pixel
123456, whose directory bucket is 120000. -/
theorem C10_witness :
    ("Gaia_DR3" ∈ surveys.map Prod.fst ∧ (0 : Int) ≤ 123456) ∧
    buildTileUrl "Gaia_DR3" 6 123456
      = "http://alasky.u-strasbg.fr/Gaia/Gaia-DR3/Norder6/Dir120000/Npix123456.png" := by
  have h := (C10_buildTileUrl_pattern "Gaia_DR3" 6 123456).1 (by decide) (by decide)
  refine ⟨⟨by decide, by decide⟩, ?_⟩
  rw [h]
  decide

end Hips
